import Mathlib

/-!
# The local OAuth2 helper of `app.js`

A shallow embedding of `src/app.js` (class `LocalServer`) and the properties of its
authorization-code flow.

* A JavaScript string is a `JSString`: Unicode characters and lone surrogates.  Where the
  platform keeps Unicode text only (a file, a URL, a header, `process.env`) it is a Lean string.
  `undefined` is `none`.
* `process.env`, the token file `tokens.json`, the response object of the request being
  served, the outbound HTTP calls made so far and the console are the fields of `World`;
  every method of `LocalServer` is a function in the state-and-exception monad `JS`.
* `JSON.parse` and `JSON.stringify` are modelled on the text of the document.
* What the code calls and does not define is a parameter, gathered in `Platform`: the URL
  parser (`new URL`), the network (`fetch`), the conversion of a number to a string, whether
  the token file opens for writing, and whether a write nobody awaits has reached the file
  when its caller goes on.  The theorems hold whatever the platform answers; the examples use
  `samplePlatform`.
* The model is sequential: one request is served to completion before the next.  A write to
  the token file that `storeTokens` has issued and that has not reached the file is the field
  `pendingWrite`; `completeWrite` is the later moment at which it succeeds or fails.
-/

namespace OAuthApp

/-! ## JavaScript values -/

/-- A thrown exception: the name of its constructor and its message. -/
structure JSError where
  name : String
  message : String
deriving DecidableEq, Repr

/-- One unit of a JavaScript string: a Unicode character, or a surrogate code unit that is not
half of a pair. -/
inductive StrUnit where
  | char (c : Char)
  | surrogate (n : Nat)
deriving DecidableEq, Repr

/-- A JavaScript string.  A high surrogate directly followed by a low one is one character, so
the two never stand side by side as units. -/
abbrev JSString := List StrUnit

/-- The JavaScript string of a Unicode text. -/
def JSString.ofString (s : String) : JSString := s.data.map StrUnit.char

/-- A value as `JSON.parse` builds it.  A number is held by its conversion to a string
(`String(x)`), which tells every double from every other but `-0` from `0`. -/
inductive Json where
  | null
  | bool (b : Bool)
  | num (text : String)
  | str (s : JSString)
  | arr (items : List Json)
  | obj (members : List (JSString × Json))
deriving Repr

/-- Truthiness of a string that may be `undefined`: whether `!x` is false. -/
def truthy : Option String → Bool
  | none => false
  | some s => s != ""

/-- Conversion to a string of a string that may be `undefined`, as in a template literal or an
argument that must be a string. -/
def stringOf : Option String → String
  | none => "undefined"
  | some s => s

/-- Truthiness of a parsed value (`ToBoolean`); `none` is `undefined`.  The falsy numbers are
the two zeros and `NaN`. -/
def Json.truthy : Option Json → Bool
  | none => false
  | some .null => false
  | some (.bool b) => b
  | some (.num text) => text != "0" && text != "NaN"
  | some (.str s) => !s.isEmpty
  | some (.arr _) => true
  | some (.obj _) => true

mutual
/-- Conversion of a parsed value to a string (`ToString`). -/
def Json.toJSString : Json → JSString
  | .null => JSString.ofString "null"
  | .bool true => JSString.ofString "true"
  | .bool false => JSString.ofString "false"
  | .num text => JSString.ofString text
  | .str s => s
  | .arr xs => Json.join xs
  | .obj _ => JSString.ofString "[object Object]"
/-- The elements of an array joined with commas (`Array.prototype.join`): `null` is empty. -/
def Json.join : List Json → JSString
  | [] => []
  | [.null] => []
  | [x] => Json.toJSString x
  | .null :: xs => StrUnit.char ',' :: Json.join xs
  | x :: xs => Json.toJSString x ++ StrUnit.char ',' :: Json.join xs
end

/-- Conversion to a string of a value that may be `undefined`. -/
def Json.stringOf : Option Json → JSString
  | none => JSString.ofString "undefined"
  | some v => v.toJSString

/-- The character a unit becomes in UTF-8 text: a lone surrogate becomes U+FFFD. -/
def StrUnit.toChar : StrUnit → Char
  | .char c => c
  | .surrogate _ => Char.ofNat 0xFFFD

/-- The value `process.env` holds after a JavaScript string is assigned to one of its
variables: the text of the string up to its first U+0000. -/
def envString (s : JSString) : String :=
  String.mk ((s.map StrUnit.toChar).takeWhile (fun c => c != '\x00'))

/-- Property lookup `v[key]` on a parsed value that is not `null`: the last member of that name
of an object, `undefined` on anything else. -/
def Json.getProp (v : Json) (key : String) : Option Json :=
  match v with
  | .obj ms => (ms.reverse.find? (fun m => m.1 == JSString.ofString key)).map (fun m => m.2)
  | _ => none

/-- An object literal, by its entries in order; `JSON.stringify` leaves out an entry whose value
is `undefined`. -/
def Json.object (entries : List (String × Option Json)) : Json :=
  .obj (entries.filterMap (fun entry =>
    entry.2.map (fun v => (JSString.ofString entry.1, v))))

/-! ## JSON text -/

/-- JSON white space. -/
def isWs (c : Char) : Bool := c == ' ' || c == '\t' || c == '\n' || c == '\r'

def skipWs : List Char → List Char
  | [] => []
  | c :: cs => if isWs c then skipWs cs else c :: cs

def hexVal (c : Char) : Option Nat :=
  if '0' ≤ c ∧ c ≤ '9' then some (c.toNat - 48)
  else if 'a' ≤ c ∧ c ≤ 'f' then some (c.toNat - 87)
  else if 'A' ≤ c ∧ c ≤ 'F' then some (c.toNat - 55)
  else none

def hex4 (a b c d : Char) : Option Nat :=
  match hexVal a, hexVal b, hexVal c, hexVal d with
  | some x, some y, some z, some w => some (((x * 16 + y) * 16 + z) * 16 + w)
  | _, _, _, _ => none

/-- The character a one-letter escape stands for. -/
def unescape (e : Char) : Option Char :=
  if e = '"' then some '"'
  else if e = '\\' then some '\\'
  else if e = '/' then some '/'
  else if e = 'b' then some '\x08'
  else if e = 'f' then some '\x0c'
  else if e = 'n' then some '\n'
  else if e = 'r' then some '\r'
  else if e = 't' then some '\t'
  else none

/-- The body of a string literal, after its opening quote: the units it denotes and the text
after its closing quote. -/
def parseStringBody : List Char → Option (List StrUnit × List Char)
  | [] => none
  | c :: rest =>
    if c = '"' then some ([], rest)
    else if c = '\\' then
      match rest with
      | [] => none
      | e :: rest1 =>
        if e = 'u' then
          match rest1 with
          | a :: b :: c :: d :: rest2 =>
            match hex4 a b c d with
            | none => none
            | some n =>
              if 0xD800 ≤ n ∧ n ≤ 0xDFFF then
                (parseStringBody rest2).map (fun p => (StrUnit.surrogate n :: p.1, p.2))
              else (parseStringBody rest2).map (fun p => (StrUnit.char (Char.ofNat n) :: p.1, p.2))
          | _ => none
        else
          match unescape e with
          | none => none
          | some ch => (parseStringBody rest1).map (fun p => (StrUnit.char ch :: p.1, p.2))
    else if c.toNat < 32 then none
    else (parseStringBody rest).map (fun p => (StrUnit.char c :: p.1, p.2))

/-- The string a sequence of units denotes: a high surrogate directly followed by a low one is
one character, every other surrogate stays as it is. -/
def combineSurrogates : List StrUnit → JSString
  | [] => []
  | .char c :: us => .char c :: combineSurrogates us
  | .surrogate h :: .surrogate l :: us =>
    if h ≤ 0xDBFF ∧ 0xDC00 ≤ l then
      .char (Char.ofNat (0x10000 + (h - 0xD800) * 0x400 + (l - 0xDC00))) :: combineSurrogates us
    else .surrogate h :: combineSurrogates (.surrogate l :: us)
  | .surrogate n :: us => .surrogate n :: combineSurrogates us

/-- A string literal after its opening quote: the string it denotes and the rest. -/
def parseString (cs : List Char) : Option (JSString × List Char) :=
  (parseStringBody cs).map (fun p => (combineSurrogates p.1, p.2))

/-- The longest run of decimal digits at the head of the text, and the rest. -/
def takeDigits : List Char → List Char × List Char
  | [] => ([], [])
  | c :: cs =>
    if '0' ≤ c ∧ c ≤ '9' then ((takeDigits cs).1.cons c, (takeDigits cs).2) else ([], c :: cs)

/-- The integer part of a number: `0`, or a non-zero digit and more digits. -/
def parseInt : List Char → Option (List Char × List Char)
  | [] => none
  | c :: cs =>
    if c = '0' then some (['0'], cs)
    else if '1' ≤ c ∧ c ≤ '9' then some (c :: (takeDigits cs).1, (takeDigits cs).2)
    else none

/-- The optional fraction of a number: a dot and at least one digit. -/
def parseFrac : List Char → Option (List Char × List Char)
  | '.' :: cs =>
    match takeDigits cs with
    | ([], _) => none
    | (ds, r) => some ('.' :: ds, r)
  | cs => some ([], cs)

/-- The optional exponent of a number: `e` or `E`, an optional sign, at least one digit. -/
def parseExp : List Char → Option (List Char × List Char)
  | [] => some ([], [])
  | c :: cs =>
    if c = 'e' ∨ c = 'E' then
      match cs with
      | [] => none
      | s :: cs1 =>
        if s = '+' ∨ s = '-' then
          match takeDigits cs1 with
          | ([], _) => none
          | (ds, r) => some (c :: s :: ds, r)
        else
          match takeDigits (s :: cs1) with
          | ([], _) => none
          | (ds, r) => some (c :: ds, r)
    else some ([], c :: cs)

/-- A number lexeme at the head of the text, and the rest. -/
def parseNumber (cs : List Char) : Option (List Char × List Char) :=
  let signed : List Char × List Char :=
    match cs with
    | '-' :: r => (['-'], r)
    | _ => ([], cs)
  match parseInt signed.2 with
  | none => none
  | some (i, r1) =>
    match parseFrac r1 with
    | none => none
    | some (f, r2) =>
      match parseExp r2 with
      | none => none
      | some (e, r3) => some (signed.1 ++ i ++ f ++ e, r3)

mutual
/-- A JSON value at the head of the text (no leading white space), and the rest.  The first
argument converts the lexeme of a number; the second bounds the depth of the recursion, and
`JSON.parse` passes more than the text can use. -/
def parseValue (number : String → String) : Nat → List Char → Option (Json × List Char)
  | 0, _ => none
  | fuel + 1, cs =>
    match cs with
    | 'n' :: 'u' :: 'l' :: 'l' :: r => some (.null, r)
    | 't' :: 'r' :: 'u' :: 'e' :: r => some (.bool true, r)
    | 'f' :: 'a' :: 'l' :: 's' :: 'e' :: r => some (.bool false, r)
    | '"' :: r => (parseString r).map (fun p => (.str p.1, p.2))
    | '[' :: r =>
      match skipWs r with
      | ']' :: r1 => some (.arr [], r1)
      | r1 => (parseElements number fuel r1).map (fun p => (.arr p.1, p.2))
    | '\x7b' :: r =>
      match skipWs r with
      | '\x7d' :: r1 => some (.obj [], r1)
      | r1 => (parseMembers number fuel r1).map (fun p => (.obj p.1, p.2))
    | _ => (parseNumber cs).map (fun p => (.num (number (String.mk p.1)), p.2))
/-- The elements of a non-empty array after its opening bracket, up to its closing bracket. -/
def parseElements (number : String → String) :
    Nat → List Char → Option (List Json × List Char)
  | 0, _ => none
  | fuel + 1, cs =>
    match parseValue number fuel (skipWs cs) with
    | none => none
    | some (v, r) =>
      match skipWs r with
      | ',' :: r1 => (parseElements number fuel r1).map (fun p => (v :: p.1, p.2))
      | ']' :: r1 => some ([v], r1)
      | _ => none
/-- The members of a non-empty object after its opening brace, up to its closing brace. -/
def parseMembers (number : String → String) :
    Nat → List Char → Option (List (JSString × Json) × List Char)
  | 0, _ => none
  | fuel + 1, cs =>
    match skipWs cs with
    | '"' :: r =>
      match parseString r with
      | none => none
      | some (k, r1) =>
        match skipWs r1 with
        | ':' :: r2 =>
          match parseValue number fuel (skipWs r2) with
          | none => none
          | some (v, r3) =>
            match skipWs r3 with
            | ',' :: r4 => (parseMembers number fuel r4).map (fun p => ((k, v) :: p.1, p.2))
            | '\x7d' :: r4 => some ([(k, v)], r4)
            | _ => none
        | _ => none
    | _ => none
end

/-- The value of a JSON text (`JSON.parse`); `none` when the text is not JSON. -/
def JSON.parse (number : String → String) (text : String) : Option Json :=
  match parseValue number (text.data.length + 1) (skipWs text.data) with
  | none => none
  | some (v, r) => if skipWs r = [] then some v else none

/-- A lower-case hexadecimal digit. -/
def hexDigit (n : Nat) : Char :=
  if n < 10 then Char.ofNat (48 + n) else Char.ofNat (87 + n)

/-- How `JSON.stringify` writes one character inside a string literal. -/
def quoteChar (c : Char) : List Char :=
  if c = '"' then ['\\', '"']
  else if c = '\\' then ['\\', '\\']
  else if c = '\x08' then ['\\', 'b']
  else if c = '\x0c' then ['\\', 'f']
  else if c = '\n' then ['\\', 'n']
  else if c = '\r' then ['\\', 'r']
  else if c = '\t' then ['\\', 't']
  else if c.toNat < 32 then ['\\', 'u', '0', '0', hexDigit (c.toNat / 16), hexDigit (c.toNat % 16)]
  else [c]

/-- How `JSON.stringify` writes one unit inside a string literal: a lone surrogate is written
as its `\u` escape. -/
def quoteUnit : StrUnit → List Char
  | .char c => quoteChar c
  | .surrogate n =>
    ['\\', 'u', hexDigit (n / 4096 % 16), hexDigit (n / 256 % 16), hexDigit (n / 16 % 16),
      hexDigit (n % 16)]

/-- The units of a string, escaped, without the surrounding quotes. -/
def quoteUnits : JSString → List Char
  | [] => []
  | u :: us => quoteUnit u ++ quoteUnits us

/-- A string literal (`QuoteJSONString`). -/
def quote (s : JSString) : List Char := '"' :: (quoteUnits s ++ ['"'])

mutual
/-- The JSON text of a value, as characters; a number that is not finite is written `null`. -/
def Json.render : Json → List Char
  | .null => "null".data
  | .bool true => "true".data
  | .bool false => "false".data
  | .num text =>
    if text = "Infinity" ∨ text = "-Infinity" ∨ text = "NaN" then "null".data else text.data
  | .str s => quote s
  | .arr xs => '[' :: Json.renderElements xs
  | .obj ms => '\x7b' :: Json.renderMembers ms
/-- The elements of an array and its closing bracket. -/
def Json.renderElements : List Json → List Char
  | [] => [']']
  | [x] => Json.render x ++ [']']
  | x :: xs => Json.render x ++ ',' :: Json.renderElements xs
/-- The members of an object and its closing brace. -/
def Json.renderMembers : List (JSString × Json) → List Char
  | [] => ['\x7d']
  | [(k, v)] => quote k ++ ':' :: (Json.render v ++ ['\x7d'])
  | (k, v) :: ms => quote k ++ ':' :: (Json.render v ++ ',' :: Json.renderMembers ms)
end

/-- The JSON text of a value (`JSON.stringify`). -/
def JSON.stringify (v : Json) : String := String.mk v.render

/-! ## URLs -/

/-- The list of name-value pairs of a `URLSearchParams` object. -/
abbrev URLSearchParams := List (String × String)

def URLSearchParams.append (ps : URLSearchParams) (name value : String) : URLSearchParams :=
  ps ++ [(name, value)]

/-- The value of the first pair of that name, `null` when there is none. -/
def URLSearchParams.get (ps : URLSearchParams) (name : String) : Option String :=
  (ps.find? (fun p => p.1 == name)).map (fun p => p.2)

def URLSearchParams.has (ps : URLSearchParams) (name : String) : Bool :=
  ps.any (fun p => p.1 == name)

/-- An upper-case hexadecimal digit. -/
def hexUpper (n : Nat) : Char :=
  if n < 10 then Char.ofNat (48 + n) else Char.ofNat (55 + n)

/-- One byte in `application/x-www-form-urlencoded` form. -/
def urlencodeByte (b : UInt8) : List Char :=
  if b.toNat = 0x20 then ['+']
  else if (0x30 ≤ b.toNat ∧ b.toNat ≤ 0x39) ∨ (0x41 ≤ b.toNat ∧ b.toNat ≤ 0x5A)
      ∨ (0x61 ≤ b.toNat ∧ b.toNat ≤ 0x7A)
      ∨ b.toNat = 0x2A ∨ b.toNat = 0x2D ∨ b.toNat = 0x2E ∨ b.toNat = 0x5F then
    [Char.ofNat b.toNat]
  else ['%', hexUpper (b.toNat / 16), hexUpper (b.toNat % 16)]

/-- A string in `application/x-www-form-urlencoded` form: its UTF-8 bytes, encoded. -/
def urlencode (s : String) : List Char :=
  (s.data.flatMap String.utf8EncodeChar).flatMap urlencodeByte

/-- The pairs `name=value`, each preceded by `&`. -/
def urlencodePairs : List (String × String) → List Char
  | [] => []
  | (k, v) :: ps => '&' :: (urlencode k ++ '=' :: (urlencode v ++ urlencodePairs ps))

/-- The query string of a list of pairs (`URLSearchParams.prototype.toString`). -/
def URLSearchParams.toString (ps : URLSearchParams) : String :=
  String.mk ((urlencodePairs ps).drop 1)

/-- A URL object, by the getters `app.js` and the serializer read.  `searchParams` is the parsed
query; `host` carries the port. -/
structure URL where
  protocol : String
  host : String
  pathname : String
  searchParams : URLSearchParams
  hash : String
deriving DecidableEq, Repr

/-- The `?` and the query string, empty when there are no pairs. -/
def URL.search (u : URL) : String :=
  if u.searchParams.isEmpty then "" else "?" ++ u.searchParams.toString

/-- The serialized URL, once its query has been written from `searchParams` (which every
`append` does): what the URL becomes when it is used as a string. -/
def URL.href (u : URL) : String :=
  u.protocol ++ "//" ++ u.host ++ u.pathname ++ u.search ++ u.hash

/-- The string without its first character (`slice(1)`). -/
def slice1 (s : String) : String := String.mk (s.data.drop 1)

/-! ## The platform and the state of the process -/

/-- An outbound HTTP request, as the arguments of `fetch`. -/
structure FetchRequest where
  url : String
  method : String
  headers : List (String × String)
  body : Option String
deriving DecidableEq, Repr

/-- What `fetch` resolves to. -/
structure FetchResponse where
  status : Nat
  body : String
deriving DecidableEq, Repr

/-- The `ok` getter of a response: a status in the range 200 to 299. -/
def FetchResponse.ok (r : FetchResponse) : Bool := 200 ≤ r.status && r.status ≤ 299

/-- What the code calls and does not define. -/
structure Platform where
  /-- The constructor `new URL(input, base)`, which throws on an input that is not a URL. -/
  newURL : String → Option String → Except JSError URL
  /-- The network behind `fetch`, which rejects on a transport error. -/
  fetch : FetchRequest → Except JSError FetchResponse
  /-- The text `String(x)` of the double `x` that the lexeme of a JSON number denotes. -/
  number : String → String
  /-- The error with which `fsPromises.open(tokenFilePath, 'w')` rejects; `none` when the file
  opens. -/
  openForWriting : Option JSError
  /-- Whether the text handed to `writeFile`, which nobody awaits, is in the file by the time
  the caller goes on. -/
  writeLandsEarly : Bool

/-- The variables of `process.env` that `app.js` reads and writes. -/
structure ProcessEnv where
  ACCESS_TOKEN : Option String := none
  REFRESH_TOKEN : Option String := none
  CLIENT_ID : Option String := none
  CLIENT_SECRET : Option String := none
  AUTH_URI : Option String := none
  TOKEN_URI : Option String := none
deriving DecidableEq, Repr

/-- The `http.ServerResponse` of the request being served. -/
structure ServerResponse where
  statusCode : Nat := 200
  headers : List (String × String) := []
  headersSent : Bool := false
  finished : Bool := false
deriving DecidableEq, Repr

/-- The `http.IncomingMessage` of the request being served: `req.url` and `req.headers.host`. -/
structure IncomingMessage where
  url : String
  host : Option String
deriving DecidableEq, Repr

/-- One argument of a console call. -/
inductive ConsoleArg where
  | text (s : String)
  | error (e : JSError)
  | json (v : Json)
deriving Repr

/-- One console call. -/
inductive ConsoleLine where
  | log (args : List ConsoleArg)
  | error (args : List ConsoleArg)
deriving Repr

/-- The state the methods of `LocalServer` act on. -/
structure World where
  /-- The variables of `process.env`: the in-memory tokens and the client credentials. -/
  env : ProcessEnv := {}
  /-- The content of `tokens.json`, `none` when the file does not exist. -/
  tokenFile : Option String := none
  /-- The text of a write to `tokens.json` that has been issued and has neither reached the
  file nor failed. -/
  pendingWrite : Option String := none
  /-- The response of the request being served. -/
  res : ServerResponse := {}
  /-- The calls made to `fetch`, oldest first. -/
  fetched : List FetchRequest := []
  /-- The console calls, oldest first. -/
  console : List ConsoleLine := []
  /-- The rejections of promises nobody awaits. -/
  unhandledRejections : List JSError := []

/-- A computation that reads and writes the state and either returns a value or throws. -/
def JS (α : Type) : Type := World → Except JSError α × World

instance : Monad JS where
  pure a := fun w => (.ok a, w)
  bind m f := fun w =>
    match m w with
    | (.ok a, w1) => f a w1
    | (.error e, w1) => (.error e, w1)

/-- The statement `throw e`. -/
def JS.throw {α : Type} (e : JSError) : JS α := fun w => (.error e, w)

/-- The statement `try body catch (e) handler`. -/
def JS.tryCatch {α : Type} (body : JS α) (handler : JSError → JS α) : JS α := fun w =>
  match body w with
  | (.ok a, w1) => (.ok a, w1)
  | (.error e, w1) => handler e w1

/-- A value the platform computed, or the exception it threw. -/
def JS.ofExcept {α : Type} (r : Except JSError α) : JS α := fun w => (r, w)

/-- A call of an `async` method that is not awaited: a rejection reaches no handler. -/
def JS.detached (m : JS Unit) : JS Unit := fun w =>
  match m w with
  | (.ok _, w1) => (.ok (), w1)
  | (.error e, w1) => (.ok (), { w1 with unhandledRejections := w1.unhandledRejections ++ [e] })

def getEnv : JS ProcessEnv := fun w => (.ok w.env, w)

def setEnv (env : ProcessEnv) : JS Unit := fun w => (.ok (), { w with env := env })

def consoleLog (args : List ConsoleArg) : JS Unit := fun w =>
  (.ok (), { w with console := w.console ++ [.log args] })

def consoleError (args : List ConsoleArg) : JS Unit := fun w =>
  (.ok (), { w with console := w.console ++ [.error args] })

/-- The call `fetch(url, options)`: it is recorded, and the network answers. -/
def fetch (P : Platform) (req : FetchRequest) : JS FetchResponse := fun w =>
  (P.fetch req, { w with fetched := w.fetched ++ [req] })

/-- The method `json()` of a response: the body parsed as JSON, whatever the status. -/
def FetchResponse.json (P : Platform) (r : FetchResponse) : JS Json :=
  match JSON.parse P.number r.body with
  | some v => pure v
  | none => JS.throw ⟨"SyntaxError", "Unexpected token in JSON"⟩

/-- The pattern `const { access_token, refresh_token } = v`: it throws on `null`. -/
def destructureTokens (v : Json) : JS (Option Json × Option Json) :=
  match v with
  | .null => JS.throw ⟨"TypeError", "Cannot destructure property 'access_token' of null"⟩
  | _ => pure (v.getProp "access_token", v.getProp "refresh_token")

/-- The characters a header value may hold: tab, and the visible range of Latin-1. -/
def validHeaderChar (c : Char) : Bool :=
  c == '\t' || (0x20 ≤ c.toNat && c.toNat ≤ 0x7e) || (0x80 ≤ c.toNat && c.toNat ≤ 0xff)

/-- The call `res.writeHead(statusCode, { 'Location': location })`.  The status code is set
first; an `undefined` value or a forbidden character makes it throw before anything is sent. -/
def ServerResponse.writeHead (statusCode : Nat) (location : Option String) : JS Unit := fun w =>
  if w.res.headersSent then
    (.error ⟨"Error", "Cannot write headers after they are sent to the client"⟩, w)
  else
    match location with
    | none =>
      (.error ⟨"TypeError", "Invalid value \"undefined\" for header \"Location\""⟩,
        { w with res := { w.res with statusCode := statusCode } })
    | some value =>
      if value.data.all validHeaderChar then
        (.ok (), { w with res := { w.res with
          statusCode := statusCode, headers := [("Location", value)], headersSent := true } })
      else
        (.error ⟨"TypeError", "Invalid character in header content [\"Location\"]"⟩,
          { w with res := { w.res with statusCode := statusCode } })

/-- The assignment `res.statusCode = statusCode`. -/
def ServerResponse.setStatusCode (statusCode : Nat) : JS Unit := fun w =>
  (.ok (), { w with res := { w.res with statusCode := statusCode } })

/-- The call `res.end()`: the head goes out if it has not yet, and the response is complete. -/
def ServerResponse.endResponse : JS Unit := fun w =>
  (.ok (), { w with res := { w.res with headersSent := true, finished := true } })

/-- The call `fsPromises.open(tokenFilePath, 'r')` and `readFile('utf-8')` on the handle. -/
def readTokenFile : JS String := fun w =>
  match w.tokenFile with
  | none => (.error ⟨"Error", "ENOENT: no such file or directory, open 'tokens.json'"⟩, w)
  | some text => (.ok text, w)

/-- The call `await fsPromises.open(tokenFilePath, 'w')`: it throws when the file does not
open, else the file is created or emptied. -/
def openTokenFileForWriting (P : Platform) : JS Unit := fun w =>
  match P.openForWriting with
  | some e => (.error e, w)
  | none => (.ok (), { w with tokenFile := some "" })

/-- The call `writeFile(text)` on a handle opened for writing, not awaited: the text is in the
file at once or the write is pending, and in neither case does the call throw.  (The call
`close()` that follows, not awaited either, waits for the write.) -/
def writeTokenFile (P : Platform) (text : String) : JS Unit := fun w =>
  if P.writeLandsEarly then (.ok (), { w with tokenFile := some text })
  else (.ok (), { w with pendingWrite := some text })

/-- The later moment at which a pending write is over: the text is in the file, or the write
has failed with an error that no handler receives. -/
def completeWrite (failure : Option JSError) (w : World) : World :=
  match w.pendingWrite with
  | none => w
  | some text =>
    match failure with
    | none => { w with tokenFile := some text, pendingWrite := none }
    | some e =>
      { w with pendingWrite := none, unhandledRejections := w.unhandledRejections ++ [e] }

/-! ## `app.js` -/

def HANDLED_ENDPOINTS.AUTHORIZE_ME : String := "authorize-me"

def HANDLED_ENDPOINTS.ACCESS_TOKEN_REDIRECT : String := "access-token-redirect"

def HANDLED_ENDPOINTS.AUTH_CODE_REDIRECT : String := "auth-code-redirect"

/-- The object `defaultAuthSearchParams`, as its entries in order. -/
def defaultAuthSearchParams : List (String × String) :=
  [("redirect_uri", "http://127.0.0.1:3030/auth-code-redirect"),
   ("response_type", "code"),
   ("scope", "https://www.googleapis.com/auth/drive"),
   ("access_type", "offline")]

/-- The method `createServiceAuthorizationURI`: `undefined` when `AUTH_URI` is not set, else the
URL of `AUTH_URI` with the default parameters and `client_id` appended to its query. -/
def createServiceAuthorizationURI (P : Platform) : JS (Option URL) := do
  let env ← getEnv
  let authURI := env.AUTH_URI
  let client_id := env.CLIENT_ID
  if !truthy authURI then
    pure none
  else
    let authURL ← JS.ofExcept (P.newURL (stringOf authURI) none)
    let authSearchParams := defaultAuthSearchParams ++ [("client_id", stringOf client_id)]
    pure (some (authSearchParams.foldl
      (fun url entry => { url with searchParams := url.searchParams.append entry.1 entry.2 })
      authURL))

/-- The method `loadTokens`: both values, converted to strings, are assigned to variables of
`process.env`. -/
def loadTokens (access_token refresh_token : Option Json) : JS Unit := do
  let env ← getEnv
  setEnv { env with
    ACCESS_TOKEN := some (envString (Json.stringOf access_token)),
    REFRESH_TOKEN := some (envString (Json.stringOf refresh_token)) }

/-- The method `readAndLoadTokens`. -/
def readAndLoadTokens (P : Platform) : JS Unit := do
  let tokenFileContents ← readTokenFile
  let parsed ←
    match JSON.parse P.number tokenFileContents with
    | some v => pure v
    | none => JS.throw ⟨"SyntaxError", "Unexpected token in JSON"⟩
  let (access_token, refresh_token) ← destructureTokens parsed
  if !Json.truthy access_token || !Json.truthy refresh_token then
    JS.throw ⟨"Error", "Token file does not contain tokens"⟩
  else
    loadTokens access_token refresh_token

/-- The method `storeTokens`: only the opening of the file is awaited. -/
def storeTokens (P : Platform) (tokensObj : Json) : JS Unit := do
  openTokenFileForWriting P
  writeTokenFile P (JSON.stringify tokensObj)

/-- The method `redirectToAuthorizeMe`. -/
def redirectToAuthorizeMe : JS Unit := do
  ServerResponse.writeHead 301 (some ("/" ++ HANDLED_ENDPOINTS.AUTHORIZE_ME))
  ServerResponse.endResponse

/-- The method `handleAuthorizeMe`. -/
def handleAuthorizeMe (P : Platform) : JS Unit := do
  let location ← createServiceAuthorizationURI P
  ServerResponse.writeHead 301 (location.map URL.href)
  ServerResponse.endResponse

/-- The method `handleAuthCodeRedirect`. -/
def handleAuthCodeRedirect (P : Platform) (accessedURL : URL) : JS Unit := do
  let searchParams := accessedURL.searchParams
  let env ← getEnv
  let token_uri := env.TOKEN_URI
  let client_id := env.CLIENT_ID
  let client_secret := env.CLIENT_SECRET
  let code := searchParams.get "code"
  if !truthy code || searchParams.has "error" then
    JS.throw ⟨"Error", "Authentication code not found."⟩
  else if token_uri == some "undefined" || !truthy token_uri then
    JS.throw ⟨"Error", "Valid token uri not found"⟩
  else
    -- call the token endpoint to get the access token
    let accTokenReqBody := URLSearchParams.toString
      [("client_id", stringOf client_id),
       ("client_secret", stringOf client_secret),
       ("code", stringOf code),
       ("grant_type", "authorization_code"),
       ("redirect_uri", "http://127.0.0.1:3030/auth-code-redirect")]
    let response ← fetch P
      { url := stringOf token_uri,
        method := "POST",
        headers := [("Content-Type", "application/x-www-form-urlencoded")],
        body := some accTokenReqBody }
    let accTokenRes ← response.json P
    let (access_token, refresh_token) ← destructureTokens accTokenRes
    if !(Json.truthy access_token && Json.truthy refresh_token) then
      JS.throw ⟨"Error", "Could not get access token. Response received:"⟩
    else
      -- Store the access_token and the refresh_token
      -- and also load them in the current env for easier use
      storeTokens P (Json.object [("access_token", access_token), ("refresh_token", refresh_token)])
      loadTokens access_token refresh_token
      ServerResponse.writeHead 301 (some "/anywhere")
      ServerResponse.endResponse

/-- The method `handleUnhandledRoutes`.  The first step yields the access token to use, or
`none` when the `catch` block has answered and returned. -/
def handleUnhandledRoutes (P : Platform) : JS Unit := do
  let env ← getEnv
  let access_token := env.ACCESS_TOKEN
  let refresh_token := env.REFRESH_TOKEN
  let loaded ←
    if !truthy access_token || !truthy refresh_token
        || [access_token, refresh_token].contains (some "undefined") then
      JS.tryCatch
        (do
          readAndLoadTokens P
          let env ← getEnv
          pure (some env.ACCESS_TOKEN))
        (fun e => do
          consoleLog [.text "Error while reading and loading tokens", .error e]
          redirectToAuthorizeMe
          pure none)
    else
      pure (some access_token)
  match loaded with
  | none => pure ()
  | some access_token =>
    let reqUri := "https://www.googleapis.com/drive/v2/files"
    JS.tryCatch
      (do
        let res ← fetch P
          { url := reqUri,
            method := "GET",
            headers := [("Authorization", "Bearer " ++ stringOf access_token)],
            body := none }
        if !res.ok then
          JS.throw ⟨"Error", "Error in the response"⟩
        else
          let body ← res.json P
          consoleLog [.json body]
          ServerResponse.setStatusCode 200
          ServerResponse.endResponse)
      (fun e => do
        consoleLog [.error e]
        redirectToAuthorizeMe)

/-- The handlers the `switch` of `serverCallback` chooses among. -/
inductive Handler where
  | handleUnhandledRoutes
  | handleAuthorizeMe
  | handleAuthCodeRedirect
deriving DecidableEq, Repr

/-- The `switch (accessedPathname)` of `serverCallback`. -/
def selectHandler (accessedPathname : String) : Handler :=
  if accessedPathname = "" then .handleUnhandledRoutes
  else if accessedPathname = HANDLED_ENDPOINTS.AUTHORIZE_ME then .handleAuthorizeMe
  else if accessedPathname = HANDLED_ENDPOINTS.AUTH_CODE_REDIRECT then .handleAuthCodeRedirect
  else .handleUnhandledRoutes

/-- The call each `case` makes: `handleUnhandledRoutes` is not awaited, `handleAuthorizeMe` is
synchronous, `handleAuthCodeRedirect` is awaited. -/
def runHandler (P : Platform) (accessedURL : URL) : Handler → JS Unit
  | .handleUnhandledRoutes => JS.detached (handleUnhandledRoutes P)
  | .handleAuthorizeMe => handleAuthorizeMe P
  | .handleAuthCodeRedirect => handleAuthCodeRedirect P accessedURL

/-- The method `serverCallback`. -/
def serverCallback (P : Platform) (req : IncomingMessage) : JS Unit :=
  JS.tryCatch
    (do
      let reqPath := req.url
      let reqHost := req.host
      let accessedURL ← JS.ofExcept (P.newURL reqPath (some ("http://" ++ stringOf reqHost)))
      let accessedPathname := slice1 accessedURL.pathname
      consoleLog [.text "Endpoint hit: ", .text accessedPathname]
      runHandler P accessedURL (selectHandler accessedPathname))
    (fun e => consoleError [.error e])

/-! ## Vocabulary of the properties -/

/-- The condition of the `if` that opens `handleUnhandledRoutes`: a token of `process.env` is
unset, empty, or the text `undefined`. -/
def memoryLacksTokens (env : ProcessEnv) : Bool :=
  !truthy env.ACCESS_TOKEN || !truthy env.REFRESH_TOKEN
    || [env.ACCESS_TOKEN, env.REFRESH_TOKEN].contains (some "undefined")

/-- The request `handleAuthCodeRedirect` sends to the token endpoint for a code. -/
def tokenRequest (env : ProcessEnv) (code : String) : FetchRequest :=
  { url := stringOf env.TOKEN_URI,
    method := "POST",
    headers := [("Content-Type", "application/x-www-form-urlencoded")],
    body := some (URLSearchParams.toString
      [("client_id", stringOf env.CLIENT_ID),
       ("client_secret", stringOf env.CLIENT_SECRET),
       ("code", code),
       ("grant_type", "authorization_code"),
       ("redirect_uri", "http://127.0.0.1:3030/auth-code-redirect")]) }

/-- The request `handleUnhandledRoutes` sends to the downstream API with an access token. -/
def driveRequest (access_token : Option String) : FetchRequest :=
  { url := "https://www.googleapis.com/drive/v2/files",
    method := "GET",
    headers := [("Authorization", "Bearer " ++ stringOf access_token)],
    body := none }

/-- A response that is a complete 301 redirect to a location. -/
def redirectTo (location : String) : ServerResponse :=
  { statusCode := 301, headers := [("Location", location)], headersSent := true, finished := true }

/-- The token pair as `storeTokens` receives it from `handleAuthCodeRedirect`. -/
def tokenPair (access_token refresh_token : String) : Json :=
  .obj [(JSString.ofString "access_token", .str (JSString.ofString access_token)),
        (JSString.ofString "refresh_token", .str (JSString.ofString refresh_token))]

/-- How many pairs of a query have a given name. -/
def countName (ps : URLSearchParams) (name : String) : Nat :=
  (ps.filter (fun p => p.1 == name)).length

/-- How many times a given pair occurs in a query. -/
def countPair (ps : URLSearchParams) (name value : String) : Nat :=
  (ps.filter (fun p => p.1 == name && p.2 == value)).length

/-! ## The conversion of a number to a string, for the examples -/

/-- The number a run of decimal digits writes. -/
def digitsValue (ds : List Char) : Nat :=
  ds.foldl (fun n c => 10 * n + (c.toNat - 48)) 0

/-- The decimal digits of a number. -/
def digitsOf (n : Nat) : List Char := Nat.toDigits 10 n

/-- The fraction `n * 10 ^ p`, as a numerator and a denominator. -/
def scaleTen (n : Nat) (p : Int) : Nat × Nat :=
  if 0 ≤ p then (n * 10 ^ p.toNat, 1) else (n, 10 ^ (-p).toNat)

/-- The fraction `n * 2 ^ p`, as a numerator and a denominator. -/
def scaleTwo (n : Nat) (p : Int) : Nat × Nat :=
  if 0 ≤ p then (n * 2 ^ p.toNat, 1) else (n, 2 ^ (-p).toNat)

/-- The quotient of two numbers rounded to the nearest integer, a tie going to the even one. -/
def divRoundEven (num den : Nat) : Nat :=
  if den < 2 * (num % den) ∨ (2 * (num % den) = den ∧ (num / den) % 2 = 1)
  then num / den + 1 else num / den

/-- The integer `l` with `2 ^ l ≤ a / b < 2 ^ (l + 1)`, for positive `a` and `b`. -/
def floorLog2 (a b : Nat) : Int :=
  if Nat.log2 b ≤ Nat.log2 a then
    (if b * 2 ^ (Nat.log2 a - Nat.log2 b) ≤ a then ((Nat.log2 a - Nat.log2 b : Nat) : Int)
     else ((Nat.log2 a - Nat.log2 b : Nat) : Int) - 1)
  else
    (if b ≤ a * 2 ^ (Nat.log2 b - Nat.log2 a) then -((Nat.log2 b - Nat.log2 a : Nat) : Int)
     else -((Nat.log2 b - Nat.log2 a : Nat) : Int) - 1)

/-- The double nearest to the positive fraction `a / b`, as `(m, e)` for `m * 2 ^ e` with
`m < 2 ^ 53` and `-1074 ≤ e`; `none` when the fraction rounds to infinity. -/
def nearestDouble (a b : Nat) : Option (Nat × Int) :=
  let e : Int := max (floorLog2 a b - 52) (-1074)
  let m : Nat := divRoundEven (a * (scaleTwo 1 (-e)).1) (b * (scaleTwo 1 (-e)).2)
  if m = 2 ^ 53 then (if 971 < e + 1 then none else some (2 ^ 52, e + 1))
  else if 971 < e then none else some (m, e)

/-- The integer `n` with `10 ^ (n - 1) ≤ a / b < 10 ^ n`, for a positive double `a / b`. -/
def decimalPoint (a b : Nat) : Int :=
  if b ≤ a then ((digitsOf (a / b)).length : Int)
  else -((((List.range 400).find? (fun j => b ≤ a * 10 ^ (j + 1))).getD 0 : Nat) : Int)

/-- The digits `s` and the exponent `p` with `s * 10 ^ p` the decimal of `k` digits nearest to
the double `x = a / b`, when that decimal rounds to `x`. -/
def decimalOfLength (x : Nat × Int) (a b : Nat) (n : Int) (k : Nat) : Option (Nat × Int) :=
  let num := a * (scaleTen 1 (k - n)).1
  let den := b * (scaleTen 1 (k - n)).2
  let lo := num / den
  let hi := lo + 1
  let okLo := lo != 0 && nearestDouble (scaleTen lo (n - k)).1 (scaleTen lo (n - k)).2 == some x
  let okHi := nearestDouble (scaleTen hi (n - k)).1 (scaleTen hi (n - k)).2 == some x
  let preferLo := 2 * (num % den) < den || (2 * (num % den) == den && lo % 2 == 0)
  if okLo && (preferLo || !okHi) then some (lo, n - k)
  else if okHi then some (hi, n - k)
  else none

/-- A number and an exponent of ten with the trailing zeros of the number moved to the
exponent. -/
def stripZeros : Nat → Nat → Int → Nat × Int
  | 0, s, p => (s, p)
  | fuel + 1, s, p => if s != 0 && s % 10 == 0 then stripZeros fuel (s / 10) (p + 1) else (s, p)

/-- The shortest decimal that rounds to the positive double `x = m * 2 ^ e`, as digits and the
position of the decimal point after them. -/
def shortestDecimal (m : Nat) (e : Int) : List Char × Int :=
  let a := (scaleTwo m e).1
  let b := (scaleTwo m e).2
  let n := decimalPoint a b
  match (List.range 17).findSome? (fun i => decimalOfLength (m, e) a b n (i + 1)) with
  | none => (digitsOf m, 0)
  | some (s, p) =>
    ((digitsOf (stripZeros 20 s p).1),
      ((digitsOf (stripZeros 20 s p).1).length : Int) + (stripZeros 20 s p).2)

/-- The text of a positive number with the digits `ds` and the decimal point after `n` of them
(`Number::toString`). -/
def formatDecimal (ds : List Char) (n : Int) : List Char :=
  if (ds.length : Int) ≤ n ∧ n ≤ 21 then ds ++ List.replicate (n.toNat - ds.length) '0'
  else if 0 < n ∧ n ≤ 21 then ds.take n.toNat ++ '.' :: ds.drop n.toNat
  else if -6 < n ∧ n ≤ 0 then '0' :: '.' :: (List.replicate (-n).toNat '0' ++ ds)
  else
    (if ds.length = 1 then ds else ds.take 1 ++ '.' :: ds.drop 1)
      ++ 'e' :: (if 0 ≤ n - 1 then '+' else '-') :: digitsOf (n - 1).natAbs

/-- The text `String(x)` of the double `x` that a JSON number lexeme denotes. -/
def numberText (lexeme : String) : String :=
  let neg := lexeme.data.head? == some '-'
  let body := if neg then lexeme.data.drop 1 else lexeme.data
  let mantissa := body.takeWhile (fun c => c != 'e' && c != 'E')
  let exponent := (body.dropWhile (fun c => c != 'e' && c != 'E')).drop 1
  let fraction := (mantissa.dropWhile (fun c => c != '.')).drop 1
  let m := digitsValue (mantissa.takeWhile (fun c => c != '.') ++ fraction)
  let e : Int :=
    (if exponent.head? == some '-' then -(digitsValue (exponent.filter Char.isDigit) : Int)
     else (digitsValue (exponent.filter Char.isDigit) : Int)) - fraction.length
  if m = 0 then "0"
  else if 400 < (digitsOf m).length + e then (if neg then "-Infinity" else "Infinity")
  else if (digitsOf m).length + e < -400 then "0"
  else
    match nearestDouble (scaleTen m e).1 (scaleTen m e).2 with
    | none => if neg then "-Infinity" else "Infinity"
    | some (0, _) => "0"
    | some (d, t) =>
      String.mk ((if neg then ['-'] else []) ++
        formatDecimal (shortestDecimal d t).1 (shortestDecimal d t).2)

/-! ## A platform for the examples -/

/-- The text before the first occurrence of a character, and the text after it if it occurs. -/
def splitFirst (sep : Char) : List Char → List Char × Option (List Char)
  | [] => ([], none)
  | c :: cs =>
    if c = sep then ([], some cs)
    else (c :: (splitFirst sep cs).1, (splitFirst sep cs).2)

/-- The pieces of a text between the occurrences of a character. -/
def splitAll (sep : Char) : List Char → List (List Char)
  | [] => [[]]
  | c :: cs =>
    if c = sep then [] :: splitAll sep cs
    else
      match splitAll sep cs with
      | [] => [[c]]
      | piece :: pieces => (c :: piece) :: pieces

/-- The pairs of a query string in which nothing is percent-encoded. -/
def sampleQuery (query : List Char) : URLSearchParams :=
  ((splitAll '&' query).filter (fun piece => !piece.isEmpty)).map (fun piece =>
    (String.mk (((splitFirst '=' piece).1).map (fun c => if c = '+' then ' ' else c)),
     String.mk ((((splitFirst '=' piece).2).getD []).map (fun c => if c = '+' then ' ' else c))))

/-- A path, query and fragment: the three as a URL object has them. -/
def sampleTail (cs : List Char) : String × URLSearchParams × String :=
  (String.mk (splitFirst '?' (splitFirst '#' cs).1).1,
   sampleQuery (((splitFirst '?' (splitFirst '#' cs).1).2).getD []),
   match (splitFirst '#' cs).2 with
   | none => ""
   | some [] => ""
   | some fragment => String.mk ('#' :: fragment))

/-- An absolute URL of the shape `scheme://host/path?query#fragment`. -/
def sampleAbsolute (cs : List Char) : Option URL :=
  match splitFirst ':' cs with
  | (scheme, some ('/' :: '/' :: rest)) =>
    if scheme.isEmpty || !scheme.all Char.isAlpha then none
    else if (splitFirst '/' (splitFirst '?' (splitFirst '#' rest).1).1).1.isEmpty then none
    else
      some
        { protocol := String.mk (scheme ++ [':']),
          host := String.mk (splitFirst '/' (splitFirst '?' (splitFirst '#' rest).1).1).1,
          pathname := String.mk
            ('/' :: ((splitFirst '/' (splitFirst '?' (splitFirst '#' rest).1).1).2).getD []),
          searchParams := (sampleTail rest).2.1,
          hash := (sampleTail rest).2.2 }
  | _ => none

/-- A URL parser for the examples.  It reads lower-case absolute URLs
`scheme://host/path?query#fragment` and, against a base, references that start with one slash,
as `new URL` does when the text needs no escaping, decoding or normalisation. -/
def sampleNewURL (input : String) (base : Option String) : Except JSError URL :=
  match sampleAbsolute input.data with
  | some url => .ok url
  | none =>
    match input.data, base.bind (fun b => sampleAbsolute b.data) with
    | '/' :: rest, some b =>
      .ok { b with
        pathname := (sampleTail ('/' :: rest)).1,
        searchParams := (sampleTail ('/' :: rest)).2.1,
        hash := (sampleTail ('/' :: rest)).2.2 }
    | _, _ => .error ⟨"TypeError", "Invalid URL"⟩

/-- A network for the examples: the token endpoint (the `POST`) answers 200 with a given body,
the downstream API (the `GET`) answers an empty object with a given status. -/
def sampleFetch (tokenBody : String) (apiStatus : Nat) (req : FetchRequest) :
    Except JSError FetchResponse :=
  if req.method = "POST" then .ok { status := 200, body := tokenBody }
  else .ok { status := apiStatus, body := "\x7b\x7d" }

/-- The platform of the examples: the token file opens for writing, and a write is in the file
when its caller goes on. -/
def samplePlatform (tokenBody : String) (apiStatus : Nat) : Platform :=
  { newURL := sampleNewURL,
    fetch := sampleFetch tokenBody apiStatus,
    number := numberText,
    openForWriting := none,
    writeLandsEarly := true }

/-- The credentials of the examples, as `readCredFile` leaves them in `process.env`. -/
def sampleEnv : ProcessEnv :=
  { CLIENT_ID := some "client-1",
    CLIENT_SECRET := some "secret-1",
    AUTH_URI := some "https://accounts.google.com/o/oauth2/auth",
    TOKEN_URI := some "https://oauth2.googleapis.com/token" }

/-! ## The monad -/

theorem JS.pure_run {α : Type} (a : α) (w : World) : (pure a : JS α) w = (.ok a, w) := rfl

theorem JS.bind_run {α β : Type} (m : JS α) (f : α → JS β) (w : World) :
    (m >>= f) w = match m w with
      | (.ok a, w1) => f a w1
      | (.error e, w1) => (.error e, w1) := rfl

/-! ## `JSON.parse` reads back what `JSON.stringify` writes -/

theorem parseStringBody_cons (c : Char) (rest : List Char) :
    parseStringBody (c :: rest) =
    if c = '"' then some ([], rest)
    else if c = '\\' then
      match rest with
      | [] => none
      | e :: rest1 =>
        if e = 'u' then
          match rest1 with
          | a :: b :: c :: d :: rest2 =>
            match hex4 a b c d with
            | none => none
            | some n =>
              if 0xD800 ≤ n ∧ n ≤ 0xDFFF then
                (parseStringBody rest2).map (fun p => (StrUnit.surrogate n :: p.1, p.2))
              else (parseStringBody rest2).map (fun p => (StrUnit.char (Char.ofNat n) :: p.1, p.2))
          | _ => none
        else
          match unescape e with
          | none => none
          | some ch => (parseStringBody rest1).map (fun p => (StrUnit.char ch :: p.1, p.2))
    else if c.toNat < 32 then none
    else (parseStringBody rest).map (fun p => (StrUnit.char c :: p.1, p.2)) := by
  rcases rest with _ | ⟨e, _ | ⟨a, _ | ⟨b, _ | ⟨c', _ | ⟨d, rest2⟩⟩⟩⟩⟩ <;> rfl

/-- The escape `\u00XY` of a control character names that character. -/
theorem hex4_hexDigit :
    ∀ n < 32, hex4 '0' '0' (hexDigit (n / 16)) (hexDigit (n % 16)) = some n := by
  decide

theorem parseStringBody_quoteUnits (s rest : List Char) :
    parseStringBody (quoteUnits (s.map StrUnit.char) ++ '"' :: rest)
      = some (s.map StrUnit.char, rest) := by
  induction s with
  | nil => simp [quoteUnits, parseStringBody_cons]
  | cons c cs ih =>
    simp only [List.map_cons, quoteUnits, quoteUnit, quoteChar]
    split_ifs with h1 h2 h3 h4 h5 h6 h7 h8
    · subst h1; simp [parseStringBody_cons, ih, unescape]
    · subst h2; simp [parseStringBody_cons, ih, unescape]
    · subst h3; simp [parseStringBody_cons, ih, unescape]
    · subst h4; simp [parseStringBody_cons, ih, unescape]
    · subst h5; simp [parseStringBody_cons, ih, unescape]
    · subst h6; simp [parseStringBody_cons, ih, unescape]
    · subst h7; simp [parseStringBody_cons, ih, unescape]
    · have hx := hex4_hexDigit c.toNat h8
      have hlt : ¬ (0xD800 ≤ c.toNat ∧ c.toNat ≤ 0xDFFF) := by omega
      simp [parseStringBody_cons, ih, hx, hlt, Char.ofNat_toNat]
    · simp [parseStringBody_cons, ih, h1, h2, h8]

theorem combineSurrogates_chars (s : List Char) :
    combineSurrogates (s.map StrUnit.char) = s.map StrUnit.char := by
  induction s with
  | nil => rfl
  | cons c cs ih => simp [combineSurrogates, ih]

theorem parseString_quote (s : String) (rest : List Char) :
    parseString (quoteUnits (JSString.ofString s) ++ '"' :: rest)
      = some (JSString.ofString s, rest) := by
  simp [parseString, JSString.ofString, parseStringBody_quoteUnits, combineSurrogates_chars]

theorem parseValue_str (number : String → String) (k : Nat) (s : String) (rest : List Char) :
    parseValue number (k + 1) ('"' :: (quoteUnits (JSString.ofString s) ++ '"' :: rest))
      = some (.str (JSString.ofString s), rest) := by
  simp [parseValue, parseString_quote]

theorem parseValue_pair (number : String → String) (k : Nat) (k1 k2 a b : String) :
    parseValue number (k + 4)
        (Json.render (.obj [(JSString.ofString k1, .str (JSString.ofString a)),
          (JSString.ofString k2, .str (JSString.ofString b))]))
      = some (.obj [(JSString.ofString k1, .str (JSString.ofString a)),
          (JSString.ofString k2, .str (JSString.ofString b))], []) := by
  simp [Json.render, Json.renderMembers, quote, parseValue, parseMembers, skipWs, isWs,
    parseString_quote, parseValue_str]

theorem parseValue_tokenPair (number : String → String) (k : Nat) (a b : String) :
    parseValue number (k + 4) (tokenPair a b).render = some (tokenPair a b, []) :=
  parseValue_pair number k "access_token" "refresh_token" a b

/-- Parsing the text of a token pair gives the pair back. -/
theorem parse_stringify_tokenPair (number : String → String) (a b : String) :
    JSON.parse number (JSON.stringify (tokenPair a b)) = some (tokenPair a b) := by
  unfold JSON.parse JSON.stringify
  obtain ⟨k, hk⟩ : ∃ k, (String.mk (tokenPair a b).render).data.length + 1 = k + 4 := by
    refine ⟨(String.mk (tokenPair a b).render).data.length - 3, ?_⟩
    simp [tokenPair, Json.render, Json.renderMembers, quote]
    omega
  rw [hk]
  have hs : skipWs (tokenPair a b).render = (tokenPair a b).render := by
    simp [tokenPair, Json.render, skipWs, isWs]
  simp only [hs, parseValue_tokenPair]
  simp [skipWs]

/-! ## `process.env` -/

/-- A text without U+0000 is held by `process.env` as it is. -/
theorem envString_ofString (s : String) (h : '\x00' ∉ s.data) :
    envString (JSString.ofString s) = s := by
  have hmap : (JSString.ofString s).map StrUnit.toChar = s.data := by
    simp [JSString.ofString, Function.comp_def, StrUnit.toChar]
  have htake : s.data.takeWhile (fun c => c != '\x00') = s.data := by
    rw [List.takeWhile_eq_self_iff]
    intro c hc
    have : c ≠ '\x00' := fun hz => h (hz ▸ hc)
    simpa using this
  unfold envString
  rw [hmap, htake]

theorem truthy_str_ofString (s : String) (h : s ≠ "") :
    Json.truthy (some (.str (JSString.ofString s))) = true := by
  have hd : s.data ≠ [] := by
    intro hnil
    apply h
    cases s
    simp_all
  cases hs : s.data with
  | nil => exact absurd hs hd
  | cons c cs => simp [Json.truthy, JSString.ofString, hs]

/-! ## The token store -/

/-- Loading succeeds on a file whose text parses to an object with two truthy tokens. -/
theorem readAndLoadTokens_ok (P : Platform) (w : World) (text : String) (v : Json)
    (hfile : w.tokenFile = some text) (hparse : JSON.parse P.number text = some v)
    (hv : v ≠ .null)
    (ha : Json.truthy (v.getProp "access_token") = true)
    (hr : Json.truthy (v.getProp "refresh_token") = true) :
    readAndLoadTokens P w = (.ok (), { w with env := { w.env with
      ACCESS_TOKEN := some (envString (Json.stringOf (v.getProp "access_token"))),
      REFRESH_TOKEN := some (envString (Json.stringOf (v.getProp "refresh_token"))) } }) := by
  cases v <;>
    first
    | exact absurd rfl hv
    | simp [readAndLoadTokens, JS.bind_run, readTokenFile, hfile, hparse, JS.pure_run,
        destructureTokens, ha, hr, loadTokens, getEnv, setEnv]

theorem getProp_tokenPair (a b : String) :
    (tokenPair a b).getProp "access_token" = some (.str (JSString.ofString a))
      ∧ (tokenPair a b).getProp "refresh_token" = some (.str (JSString.ofString b)) := by
  constructor
  · have h : (JSString.ofString "refresh_token" == JSString.ofString "access_token") = false := by
      decide
    simp [tokenPair, Json.getProp, h]
  · simp [tokenPair, Json.getProp]

/-- Loading a stored pair of non-empty tokens without U+0000 puts exactly that pair in
memory. -/
theorem readAndLoadTokens_tokenPair (P : Platform) (w : World) (a b : String)
    (ha : a ≠ "") (hb : b ≠ "") (hna : '\x00' ∉ a.data) (hnb : '\x00' ∉ b.data)
    (hfile : w.tokenFile = some (JSON.stringify (tokenPair a b))) :
    readAndLoadTokens P w = (.ok (), { w with env := { w.env with
      ACCESS_TOKEN := some a, REFRESH_TOKEN := some b } }) := by
  obtain ⟨hga, hgb⟩ := getProp_tokenPair a b
  have h := readAndLoadTokens_ok P w _ (tokenPair a b) hfile
    (parse_stringify_tokenPair P.number a b) (by simp [tokenPair])
    (by rw [hga]; exact truthy_str_ofString a ha)
    (by rw [hgb]; exact truthy_str_ofString b hb)
  rw [h, hga, hgb]
  simp only [Json.stringOf, Json.toJSString, envString_ofString a hna, envString_ofString b hnb]

/-- Loading fails, and changes nothing, on a missing file, on a text that is not JSON, and on a
document in which a token is not truthy. -/
theorem readAndLoadTokens_fails (P : Platform) (w : World)
    (h : w.tokenFile = none
      ∨ (∃ text, w.tokenFile = some text ∧ JSON.parse P.number text = none)
      ∨ (∃ text v, w.tokenFile = some text ∧ JSON.parse P.number text = some v
          ∧ (Json.truthy (v.getProp "access_token") = false
            ∨ Json.truthy (v.getProp "refresh_token") = false))) :
    ∃ e, readAndLoadTokens P w = (.error e, w) := by
  rcases h with h | ⟨text, hfile, hparse⟩ | ⟨text, v, hfile, hparse, hv⟩
  · exact ⟨⟨"Error", "ENOENT: no such file or directory, open 'tokens.json'"⟩,
      by simp [readAndLoadTokens, JS.bind_run, readTokenFile, h]⟩
  · exact ⟨⟨"SyntaxError", "Unexpected token in JSON"⟩,
      by simp [readAndLoadTokens, JS.bind_run, readTokenFile, hfile, hparse, JS.throw]⟩
  · by_cases hnull : v = .null
    · subst hnull
      exact ⟨⟨"TypeError", "Cannot destructure property 'access_token' of null"⟩,
        by simp [readAndLoadTokens, JS.bind_run, readTokenFile, hfile, hparse,
          JS.pure_run, destructureTokens, JS.throw]⟩
    · refine ⟨⟨"Error", "Token file does not contain tokens"⟩, ?_⟩
      cases v <;>
        first
        | exact absurd rfl hnull
        | (rcases hv with hv | hv <;>
            simp [readAndLoadTokens, JS.bind_run, readTokenFile, hfile, hparse, JS.pure_run,
              destructureTokens, hv, JS.throw])

/-! ## The bound on recursion in `JSON.parse` is never reached -/

theorem skipWs_length (cs : List Char) : (skipWs cs).length ≤ cs.length := by
  induction cs with
  | nil => simp [skipWs]
  | cons c cs ih =>
    simp only [skipWs]
    split_ifs
    · simp only [List.length_cons]; omega
    · exact le_refl _

theorem parseStringBody_length : ∀ (n : Nat) (cs : List Char), cs.length ≤ n →
    ∀ us r, parseStringBody cs = some (us, r) → r.length < cs.length := by
  intro n
  induction n with
  | zero =>
    intro cs hn us r h
    cases cs with
    | nil => simp [parseStringBody] at h
    | cons c cs => simp at hn
  | succ n ih =>
    intro cs hn us r h
    cases cs with
    | nil => simp [parseStringBody] at h
    | cons c rest =>
      rw [parseStringBody_cons] at h
      simp only [List.length_cons] at hn ⊢
      have step : ∀ (tail : List Char) (f : List StrUnit × List Char → List StrUnit × List Char),
          (∀ p, (f p).2 = p.2) → tail.length ≤ rest.length →
          (parseStringBody tail).map f = some (us, r) → r.length < rest.length + 1 := by
        intro tail f hf hlen hmap
        obtain ⟨p, hp, hfp⟩ := Option.map_eq_some'.mp hmap
        have h2 := hf p
        rw [hfp] at h2
        have := ih tail (by omega) p.1 p.2 hp
        simp only at h2
        rw [h2]
        omega
      split_ifs at h with h1 h2 h3
      · simp only [Option.some.injEq, Prod.mk.injEq] at h
        obtain ⟨-, rfl⟩ := h
        omega
      · cases rest with
        | nil => simp at h
        | cons e rest1 =>
          simp only at h
          split_ifs at h with h4
          · rcases rest1 with _ | ⟨a, _ | ⟨b, _ | ⟨c', _ | ⟨d, rest2⟩⟩⟩⟩ <;> simp only at h
            · cases h
            · cases h
            · cases h
            · cases h
            · cases hx : hex4 a b c' d with
              | none => simp [hx] at h
              | some m =>
                simp only [hx] at h
                split_ifs at h
                · exact step rest2 (fun p => (StrUnit.surrogate m :: p.1, p.2)) (fun _ => rfl)
                    (by simp only [List.length_cons]; omega) h
                · exact step rest2 (fun p => (StrUnit.char (Char.ofNat m) :: p.1, p.2))
                    (fun _ => rfl) (by simp only [List.length_cons]; omega) h
          · cases hu : unescape e with
            | none => simp [hu] at h
            | some ch =>
              simp only [hu] at h
              exact step rest1 (fun p => (StrUnit.char ch :: p.1, p.2)) (fun _ => rfl)
                (by simp only [List.length_cons]; omega) h
      · exact step rest (fun p => (StrUnit.char c :: p.1, p.2)) (fun _ => rfl) (le_refl _) h

theorem parseString_length (cs : List Char) (s : JSString) (r : List Char)
    (h : parseString cs = some (s, r)) : r.length < cs.length := by
  unfold parseString at h
  cases hp : parseStringBody cs with
  | none => simp [hp] at h
  | some p =>
    obtain ⟨us, r1⟩ := p
    simp only [hp, Option.map_some', Option.some.injEq, Prod.mk.injEq] at h
    obtain ⟨-, rfl⟩ := h
    exact parseStringBody_length cs.length cs (le_refl _) us r1 hp

theorem takeDigits_length (cs : List Char) : (takeDigits cs).2.length ≤ cs.length := by
  induction cs with
  | nil => simp [takeDigits]
  | cons c cs ih =>
    simp only [takeDigits]
    split_ifs
    · simp only [List.length_cons]; omega
    · exact le_refl _

theorem parseInt_length (cs i r : List Char) (h : parseInt cs = some (i, r)) :
    r.length < cs.length := by
  cases cs with
  | nil => simp [parseInt] at h
  | cons c cs =>
    simp only [parseInt] at h
    have := takeDigits_length cs
    split_ifs at h <;>
      simp only [Option.some.injEq, Prod.mk.injEq] at h <;>
      obtain ⟨-, rfl⟩ := h <;> simp only [List.length_cons] <;> omega

theorem parseFrac_length (cs f r : List Char) (h : parseFrac cs = some (f, r)) :
    r.length ≤ cs.length := by
  unfold parseFrac at h
  split at h
  · rename_i cs1
    have := takeDigits_length cs1
    split at h
    · cases h
    · rename_i ds r1 _ hds
      simp only [Option.some.injEq, Prod.mk.injEq] at h
      obtain ⟨-, rfl⟩ := h
      rw [hds] at this
      simp only [List.length_cons] at this ⊢
      omega
  · simp only [Option.some.injEq, Prod.mk.injEq] at h
    obtain ⟨-, rfl⟩ := h
    exact le_refl _

theorem parseExp_length (cs e r : List Char) (h : parseExp cs = some (e, r)) :
    r.length ≤ cs.length := by
  cases cs with
  | nil =>
    simp only [parseExp, Option.some.injEq, Prod.mk.injEq] at h
    obtain ⟨-, rfl⟩ := h
    exact le_refl _
  | cons c cs =>
    simp only [parseExp] at h
    split_ifs at h with h1
    · cases cs with
      | nil => cases h
      | cons s cs1 =>
        simp only at h
        split_ifs at h with h2
        · have := takeDigits_length cs1
          split at h
          · cases h
          · rename_i ds r1 _ hds
            simp only [Option.some.injEq, Prod.mk.injEq] at h
            obtain ⟨-, rfl⟩ := h
            rw [hds] at this
            simp only [List.length_cons] at this ⊢
            omega
        · have := takeDigits_length (s :: cs1)
          split at h
          · cases h
          · rename_i ds r1 _ hds
            simp only [Option.some.injEq, Prod.mk.injEq] at h
            obtain ⟨-, rfl⟩ := h
            rw [hds] at this
            simp only [List.length_cons] at this ⊢
            omega
    · simp only [Option.some.injEq, Prod.mk.injEq] at h
      obtain ⟨-, rfl⟩ := h
      exact le_refl _

theorem parseNumber_length (cs l r : List Char) (h : parseNumber cs = some (l, r)) :
    r.length < cs.length := by
  unfold parseNumber at h
  simp only at h
  have hsigned : (match cs with
      | '-' :: r => (['-'], r)
      | _ => (([] : List Char), cs)).2.length ≤ cs.length := by
    split
    · simp only [List.length_cons]; omega
    · exact le_refl _
  revert h hsigned
  generalize (match cs with
      | '-' :: r => (['-'], r)
      | _ => (([] : List Char), cs)) = signed
  intro h hsigned
  cases hi : parseInt signed.2 with
  | none => simp [hi] at h
  | some p =>
    obtain ⟨i, r1⟩ := p
    have h1 := parseInt_length _ _ _ hi
    simp only [hi] at h
    cases hf : parseFrac r1 with
    | none => simp [hf] at h
    | some q =>
      obtain ⟨f, r2⟩ := q
      have h2 := parseFrac_length _ _ _ hf
      simp only [hf] at h
      cases he : parseExp r2 with
      | none => simp [he] at h
      | some t =>
        obtain ⟨e, r3⟩ := t
        have h3 := parseExp_length _ _ _ he
        simp only [he, Option.some.injEq, Prod.mk.injEq] at h
        obtain ⟨-, rfl⟩ := h
        omega

/-- A parse that succeeds with some bound on the recursion consumes at least one character and
succeeds, with the same result, with every bound that is at least the number of characters it
consumes. -/
theorem parse_fuel (number : String → String) (f : Nat) :
    (∀ cs v r, parseValue number f cs = some (v, r) →
      r.length < cs.length
        ∧ ∀ g, cs.length ≤ g + r.length → parseValue number g cs = some (v, r))
    ∧ (∀ cs vs r, parseElements number f cs = some (vs, r) →
      r.length < cs.length
        ∧ ∀ g, cs.length ≤ g + r.length → parseElements number g cs = some (vs, r))
    ∧ (∀ cs ms r, parseMembers number f cs = some (ms, r) →
      r.length < cs.length
        ∧ ∀ g, cs.length ≤ g + r.length → parseMembers number g cs = some (ms, r)) := by
  induction f with
  | zero =>
    refine ⟨?_, ?_, ?_⟩ <;> intro cs v r h
    · simp [parseValue] at h
    · simp [parseElements] at h
    · simp [parseMembers] at h
  | succ f ih =>
    obtain ⟨ihV, ihE, ihM⟩ := ih
    refine ⟨?_, ?_, ?_⟩
    · intro cs v r h
      unfold parseValue at h
      split at h
      · simp only [Option.some.injEq, Prod.mk.injEq] at h
        obtain ⟨rfl, rfl⟩ := h
        refine ⟨by simp only [List.length_cons]; omega, ?_⟩
        intro g hg
        obtain ⟨g', rfl⟩ : ∃ g', g = g' + 1 :=
          ⟨g - 1, by simp only [List.length_cons] at hg; omega⟩
        rfl
      · simp only [Option.some.injEq, Prod.mk.injEq] at h
        obtain ⟨rfl, rfl⟩ := h
        refine ⟨by simp only [List.length_cons]; omega, ?_⟩
        intro g hg
        obtain ⟨g', rfl⟩ : ∃ g', g = g' + 1 :=
          ⟨g - 1, by simp only [List.length_cons] at hg; omega⟩
        rfl
      · simp only [Option.some.injEq, Prod.mk.injEq] at h
        obtain ⟨rfl, rfl⟩ := h
        refine ⟨by simp only [List.length_cons]; omega, ?_⟩
        intro g hg
        obtain ⟨g', rfl⟩ : ∃ g', g = g' + 1 :=
          ⟨g - 1, by simp only [List.length_cons] at hg; omega⟩
        rfl
      · rename_i r0
        obtain ⟨p, hp, hfp⟩ := Option.map_eq_some'.mp h
        have hlen := parseString_length r0 p.1 p.2 hp
        simp only [Prod.mk.injEq] at hfp
        obtain ⟨rfl, rfl⟩ := hfp
        refine ⟨by simp only [List.length_cons]; omega, ?_⟩
        intro g hg
        obtain ⟨g', rfl⟩ : ∃ g', g = g' + 1 :=
          ⟨g - 1, by simp only [List.length_cons] at hg; omega⟩
        simp [parseValue, hp]
      · rename_i r0
        have hws := skipWs_length r0
        split at h
        · rename_i r1 heq
          simp only [Option.some.injEq, Prod.mk.injEq] at h
          obtain ⟨rfl, rfl⟩ := h
          rw [heq] at hws
          simp only [List.length_cons] at hws
          refine ⟨by simp only [List.length_cons]; omega, ?_⟩
          intro g hg
          obtain ⟨g', rfl⟩ : ∃ g', g = g' + 1 :=
            ⟨g - 1, by simp only [List.length_cons] at hg; omega⟩
          simp [parseValue, heq]
        · rename_i r1 hne
          obtain ⟨p, hp, hfp⟩ := Option.map_eq_some'.mp h
          simp only [Prod.mk.injEq] at hfp
          obtain ⟨rfl, rfl⟩ := hfp
          obtain ⟨hlen, hfuel⟩ := ihE _ _ _ hp
          refine ⟨by simp only [List.length_cons]; omega, ?_⟩
          intro g hg
          obtain ⟨g', rfl⟩ : ∃ g', g = g' + 1 :=
            ⟨g - 1, by simp only [List.length_cons] at hg; omega⟩
          have hg' := hfuel g' (by simp only [List.length_cons] at hg; omega)
          unfold parseValue
          simp [hg']
      · rename_i r0
        have hws := skipWs_length r0
        split at h
        · rename_i r1 heq
          simp only [Option.some.injEq, Prod.mk.injEq] at h
          obtain ⟨rfl, rfl⟩ := h
          rw [heq] at hws
          simp only [List.length_cons] at hws
          refine ⟨by simp only [List.length_cons]; omega, ?_⟩
          intro g hg
          obtain ⟨g', rfl⟩ : ∃ g', g = g' + 1 :=
            ⟨g - 1, by simp only [List.length_cons] at hg; omega⟩
          simp [parseValue, heq]
        · rename_i r1 hne
          obtain ⟨p, hp, hfp⟩ := Option.map_eq_some'.mp h
          simp only [Prod.mk.injEq] at hfp
          obtain ⟨rfl, rfl⟩ := hfp
          obtain ⟨hlen, hfuel⟩ := ihM _ _ _ hp
          refine ⟨by simp only [List.length_cons]; omega, ?_⟩
          intro g hg
          obtain ⟨g', rfl⟩ : ∃ g', g = g' + 1 :=
            ⟨g - 1, by simp only [List.length_cons] at hg; omega⟩
          have hg' := hfuel g' (by simp only [List.length_cons] at hg; omega)
          unfold parseValue
          simp [hg']
      · obtain ⟨p, hp, hfp⟩ := Option.map_eq_some'.mp h
        have hlen := parseNumber_length _ p.1 p.2 hp
        simp only [Prod.mk.injEq] at hfp
        obtain ⟨rfl, rfl⟩ := hfp
        refine ⟨hlen, ?_⟩
        intro g hg
        obtain ⟨g', rfl⟩ : ∃ g', g = g' + 1 := ⟨g - 1, by omega⟩
        unfold parseValue
        simp [hp]
    · intro cs vs r h
      unfold parseElements at h
      cases hv : parseValue number f (skipWs cs) with
      | none => simp [hv] at h
      | some q =>
        obtain ⟨v, r1⟩ := q
        obtain ⟨hlen1, hfuel1⟩ := ihV _ _ _ hv
        have hws := skipWs_length cs
        have hws1 := skipWs_length r1
        simp only [hv] at h
        split at h
        · rename_i r2 heq
          obtain ⟨p, hp, hfp⟩ := Option.map_eq_some'.mp h
          simp only [Prod.mk.injEq] at hfp
          obtain ⟨rfl, rfl⟩ := hfp
          obtain ⟨hlen2, hfuel2⟩ := ihE _ _ _ hp
          rw [heq] at hws1
          simp only [List.length_cons] at hws1
          refine ⟨by omega, ?_⟩
          intro g hg
          obtain ⟨g', rfl⟩ : ∃ g', g = g' + 1 := ⟨g - 1, by omega⟩
          have hg1 := hfuel1 g' (by omega)
          have hg2 := hfuel2 g' (by omega)
          unfold parseElements
          simp [hg1, heq, hg2]
        · rename_i r2 heq
          simp only [Option.some.injEq, Prod.mk.injEq] at h
          obtain ⟨rfl, rfl⟩ := h
          rw [heq] at hws1
          simp only [List.length_cons] at hws1
          refine ⟨by omega, ?_⟩
          intro g hg
          obtain ⟨g', rfl⟩ : ∃ g', g = g' + 1 := ⟨g - 1, by omega⟩
          have hg1 := hfuel1 g' (by omega)
          unfold parseElements
          simp [hg1, heq]
        · cases h
    · intro cs ms r h
      unfold parseMembers at h
      have hws := skipWs_length cs
      split at h
      · rename_i r0 heq0
        rw [heq0] at hws
        simp only [List.length_cons] at hws
        cases hk : parseString r0 with
        | none => simp [hk] at h
        | some q =>
          obtain ⟨k, r1⟩ := q
          have hlenk := parseString_length _ _ _ hk
          have hws1 := skipWs_length r1
          simp only [hk] at h
          split at h
          · rename_i r2 heq2
            rw [heq2] at hws1
            simp only [List.length_cons] at hws1
            have hws2 := skipWs_length r2
            cases hv : parseValue number f (skipWs r2) with
            | none => simp [hv] at h
            | some q =>
              obtain ⟨v, r3⟩ := q
              obtain ⟨hlen3, hfuel3⟩ := ihV _ _ _ hv
              have hws3 := skipWs_length r3
              simp only [hv] at h
              split at h
              · rename_i r4 heq4
                obtain ⟨p, hp, hfp⟩ := Option.map_eq_some'.mp h
                simp only [Prod.mk.injEq] at hfp
                obtain ⟨rfl, rfl⟩ := hfp
                obtain ⟨hlen4, hfuel4⟩ := ihM _ _ _ hp
                rw [heq4] at hws3
                simp only [List.length_cons] at hws3
                refine ⟨by omega, ?_⟩
                intro g hg
                obtain ⟨g', rfl⟩ : ∃ g', g = g' + 1 := ⟨g - 1, by omega⟩
                have hg3 := hfuel3 g' (by omega)
                have hg4 := hfuel4 g' (by omega)
                unfold parseMembers
                simp [heq0, hk, heq2, hg3, heq4, hg4]
              · rename_i r4 heq4
                simp only [Option.some.injEq, Prod.mk.injEq] at h
                obtain ⟨rfl, rfl⟩ := h
                rw [heq4] at hws3
                simp only [List.length_cons] at hws3
                refine ⟨by omega, ?_⟩
                intro g hg
                obtain ⟨g', rfl⟩ : ∃ g', g = g' + 1 := ⟨g - 1, by omega⟩
                have hg3 := hfuel3 g' (by omega)
                unfold parseMembers
                simp [heq0, hk, heq2, hg3, heq4]
              · cases h
          · cases h
      · cases h

/-- The bound `JSON.parse` passes is enough: whenever some bound lets the text be read as a
value with nothing but white space after it, `JSON.parse` returns that value. -/
theorem JSON.parse_of_parseValue (number : String → String) (text : String) (f : Nat)
    (v : Json) (r : List Char)
    (h : parseValue number f (skipWs text.data) = some (v, r)) (hr : skipWs r = []) :
    JSON.parse number text = some v := by
  obtain ⟨hlen, hfuel⟩ := (parse_fuel number f).1 _ _ _ h
  have hws := skipWs_length text.data
  unfold JSON.parse
  rw [hfuel (text.data.length + 1) (by omega)]
  simp [hr]
/-! ## The response -/

/-- Writing the head of a response not yet started, with a location that is a valid header
value, succeeds. -/
theorem ServerResponse.writeHead_ok (w : World) (statusCode : Nat) (location : String)
    (hres : w.res.headersSent = false) (hvalid : location.data.all validHeaderChar = true) :
    ServerResponse.writeHead statusCode (some location) w = (.ok (), { w with res := { w.res with
      statusCode := statusCode, headers := [("Location", location)], headersSent := true } }) := by
  simp only [ServerResponse.writeHead, hres, hvalid, Bool.false_eq_true, if_false, if_true]

/-- On a response not yet started, `redirectToAuthorizeMe` sends a complete 301 redirect to
`/authorize-me`. -/
theorem redirectToAuthorizeMe_run (w : World) (hres : w.res.headersSent = false) :
    redirectToAuthorizeMe w = (.ok (), { w with res := redirectTo "/authorize-me" }) := by
  have hvalid : ("/" ++ HANDLED_ENDPOINTS.AUTHORIZE_ME).data.all validHeaderChar = true := by
    decide
  simp only [redirectToAuthorizeMe, JS.bind_run, ServerResponse.writeHead_ok w _ _ hres hvalid,
    ServerResponse.endResponse, redirectTo]
  rfl

/-! ## The callback: `handleAuthCodeRedirect` -/

/-- What `handleAuthCodeRedirect` does once the code and the token endpoint have passed their
checks and the token endpoint has answered with a JSON document that is not `null`. -/
theorem handleAuthCodeRedirect_exchange (P : Platform) (accessedURL : URL) (w : World)
    (code : String) (response : FetchResponse) (v : Json)
    (hcode : accessedURL.searchParams.get "code" = some code) (hne : code ≠ "")
    (hnoerr : accessedURL.searchParams.has "error" = false)
    (huri : truthy w.env.TOKEN_URI = true ∧ w.env.TOKEN_URI ≠ some "undefined")
    (hfetch : P.fetch (tokenRequest w.env code) = .ok response)
    (hparse : JSON.parse P.number response.body = some v) (hv : v ≠ .null) :
    handleAuthCodeRedirect P accessedURL w =
      (if !(Json.truthy (v.getProp "access_token") && Json.truthy (v.getProp "refresh_token")) then
        JS.throw ⟨"Error", "Could not get access token. Response received:"⟩
      else do
        storeTokens P (Json.object [("access_token", v.getProp "access_token"),
          ("refresh_token", v.getProp "refresh_token")])
        loadTokens (v.getProp "access_token") (v.getProp "refresh_token")
        ServerResponse.writeHead 301 (some "/anywhere")
        ServerResponse.endResponse)
        { w with fetched := w.fetched ++ [tokenRequest w.env code] } := by
  have hc : (!truthy (accessedURL.searchParams.get "code")
      || accessedURL.searchParams.has "error") = false := by
    simp [hcode, hnoerr, truthy, hne]
  have hu : (w.env.TOKEN_URI == some "undefined" || !truthy w.env.TOKEN_URI) = false := by
    simp [huri.1, huri.2]
  have hreq : FetchRequest.mk (stringOf w.env.TOKEN_URI) "POST"
      [("Content-Type", "application/x-www-form-urlencoded")]
      (some (URLSearchParams.toString
        [("client_id", stringOf w.env.CLIENT_ID),
         ("client_secret", stringOf w.env.CLIENT_SECRET),
         ("code", stringOf (accessedURL.searchParams.get "code")),
         ("grant_type", "authorization_code"),
         ("redirect_uri", "http://127.0.0.1:3030/auth-code-redirect")]))
      = tokenRequest w.env code := by
    simp [tokenRequest, hcode, stringOf]
  cases v <;>
    first
    | exact absurd rfl hv
    | simp only [handleAuthCodeRedirect, JS.bind_run, getEnv, hc, hu, hreq, fetch, hfetch,
        FetchResponse.json, hparse, JS.pure_run, destructureTokens, Bool.false_eq_true, if_false]

/-- What `handleAuthCodeRedirect` does when the token endpoint has answered with the non-empty
texts `A` and `B`, free of U+0000, as tokens, the token file opens for writing and the response
is not yet started. -/
theorem handleAuthCodeRedirect_stores (P : Platform) (accessedURL : URL) (w : World)
    (code : String) (response : FetchResponse) (v : Json) (A B : String)
    (hcode : accessedURL.searchParams.get "code" = some code) (hne : code ≠ "")
    (hnoerr : accessedURL.searchParams.has "error" = false)
    (huri : truthy w.env.TOKEN_URI = true ∧ w.env.TOKEN_URI ≠ some "undefined")
    (hfetch : P.fetch (tokenRequest w.env code) = .ok response)
    (hparse : JSON.parse P.number response.body = some v)
    (haccess : v.getProp "access_token" = some (.str (JSString.ofString A))) (hA : A ≠ "")
    (hrefresh : v.getProp "refresh_token" = some (.str (JSString.ofString B))) (hB : B ≠ "")
    (hnulA : '\x00' ∉ A.data) (hnulB : '\x00' ∉ B.data)
    (hopen : P.openForWriting = none) (hres : w.res.headersSent = false) :
    handleAuthCodeRedirect P accessedURL w = (.ok (),
      { w with
        fetched := w.fetched ++ [tokenRequest w.env code],
        tokenFile := some (if P.writeLandsEarly then JSON.stringify (tokenPair A B) else ""),
        pendingWrite :=
          if P.writeLandsEarly then w.pendingWrite else some (JSON.stringify (tokenPair A B)),
        env := { w.env with ACCESS_TOKEN := some A, REFRESH_TOKEN := some B },
        res := redirectTo "/anywhere" }) := by
  have hv : v ≠ .null := by
    rintro rfl
    simp [Json.getProp] at haccess
  have hobj : Json.object [("access_token", some (.str (JSString.ofString A))),
      ("refresh_token", some (.str (JSString.ofString B)))] = tokenPair A B := rfl
  rw [handleAuthCodeRedirect_exchange P accessedURL w code response v hcode hne hnoerr huri
    hfetch hparse hv]
  rw [haccess, hrefresh]
  simp only [truthy_str_ofString A hA, truthy_str_ofString B hB, Bool.and_self, Bool.not_true,
    Bool.false_eq_true, if_false, hobj]
  cases hearly : P.writeLandsEarly <;>
    simp [JS.bind_run, storeTokens, loadTokens, openTokenFileForWriting, writeTokenFile, hopen,
      hearly, getEnv, setEnv,
      ServerResponse.writeHead_ok _ _ _ _ (by decide : "/anywhere".data.all validHeaderChar = true),
      ServerResponse.endResponse, Json.stringOf, Json.toJSString, envString_ofString A hnulA,
      envString_ofString B hnulB, redirectTo, hres]

/-- C1.  A callback whose query has an `error` parameter, or no `code` parameter, or an empty
one, makes `handleAuthCodeRedirect` throw the error "Authentication code not found." and
leaves the whole state as it was: no call to the token endpoint is made, and neither the
tokens in memory nor the token file change. -/
theorem handleAuthCodeRedirect_denied (P : Platform) (accessedURL : URL) (w : World)
    (h : accessedURL.searchParams.has "error" = true
      ∨ accessedURL.searchParams.get "code" = none
      ∨ accessedURL.searchParams.get "code" = some "") :
    handleAuthCodeRedirect P accessedURL w
        = (.error ⟨"Error", "Authentication code not found."⟩, w)
      ∧ (handleAuthCodeRedirect P accessedURL w).2.fetched = w.fetched
      ∧ (handleAuthCodeRedirect P accessedURL w).2.env = w.env
      ∧ (handleAuthCodeRedirect P accessedURL w).2.tokenFile = w.tokenFile := by
  have hc : (!truthy (accessedURL.searchParams.get "code")
      || accessedURL.searchParams.has "error") = true := by
    rcases h with h | h | h <;> simp [h, truthy]
  have hrun : handleAuthCodeRedirect P accessedURL w
      = (.error ⟨"Error", "Authentication code not found."⟩, w) := by
    simp only [handleAuthCodeRedirect, JS.bind_run, getEnv, hc, if_true, JS.throw]
  simp [hrun]

/-- The provider's denial `?error=access_denied` is refused before any call is made. -/
theorem handleAuthCodeRedirect_denied_witness :
    URLSearchParams.has [("error", "access_denied")] "error" = true
      ∧ handleAuthCodeRedirect (samplePlatform "" 200)
          { protocol := "http:", host := "127.0.0.1:3030", pathname := "/auth-code-redirect",
            searchParams := [("error", "access_denied")], hash := "" }
          { env := sampleEnv }
        = (.error ⟨"Error", "Authentication code not found."⟩, { env := sampleEnv }) :=
  ⟨by decide, (handleAuthCodeRedirect_denied _ _ _ (Or.inl (by decide))).1⟩

/-- C2.  With a non-empty code, no `error` parameter and a token endpoint set, a response of
the token endpoint that has an `access_token` and no `refresh_token` makes
`handleAuthCodeRedirect` throw the error "Could not get access token. Response received:";
one call to the token endpoint has been made, and the tokens in memory and the token file are
what they were, no write to the file being issued. -/
theorem handleAuthCodeRedirect_missing_refresh_token (P : Platform) (accessedURL : URL)
    (w : World) (code : String) (response : FetchResponse) (v access_token : Json)
    (hcode : accessedURL.searchParams.get "code" = some code) (hne : code ≠ "")
    (hnoerr : accessedURL.searchParams.has "error" = false)
    (huri : truthy w.env.TOKEN_URI = true ∧ w.env.TOKEN_URI ≠ some "undefined")
    (hfetch : P.fetch (tokenRequest w.env code) = .ok response)
    (hparse : JSON.parse P.number response.body = some v)
    (haccess : v.getProp "access_token" = some access_token)
    (hrefresh : v.getProp "refresh_token" = none) :
    (handleAuthCodeRedirect P accessedURL w).1
        = .error ⟨"Error", "Could not get access token. Response received:"⟩
      ∧ (handleAuthCodeRedirect P accessedURL w).2.env = w.env
      ∧ (handleAuthCodeRedirect P accessedURL w).2.tokenFile = w.tokenFile
      ∧ (handleAuthCodeRedirect P accessedURL w).2.pendingWrite = w.pendingWrite
      ∧ (handleAuthCodeRedirect P accessedURL w).2.fetched
          = w.fetched ++ [tokenRequest w.env code] := by
  have hv : v ≠ .null := by
    rintro rfl
    simp [Json.getProp] at haccess
  rw [handleAuthCodeRedirect_exchange P accessedURL w code response v hcode hne hnoerr huri
    hfetch hparse hv]
  simp [hrefresh, Json.truthy, JS.throw]

/-- A token response with an access token only. -/
theorem handleAuthCodeRedirect_missing_refresh_token_witness :
    (handleAuthCodeRedirect (samplePlatform "\x7b\"access_token\":\"A\"\x7d" 200)
        { protocol := "http:", host := "127.0.0.1:3030", pathname := "/auth-code-redirect",
          searchParams := [("code", "abc")], hash := "" }
        { env := { sampleEnv with ACCESS_TOKEN := some "T0", REFRESH_TOKEN := some "R0" },
          tokenFile := some "\x7b\"access_token\":\"T0\",\"refresh_token\":\"R0\"\x7d" }).2.tokenFile
      = some "\x7b\"access_token\":\"T0\",\"refresh_token\":\"R0\"\x7d" :=
  (handleAuthCodeRedirect_missing_refresh_token (samplePlatform "\x7b\"access_token\":\"A\"\x7d" 200)
    { protocol := "http:", host := "127.0.0.1:3030", pathname := "/auth-code-redirect",
      searchParams := [("code", "abc")], hash := "" }
    { env := { sampleEnv with ACCESS_TOKEN := some "T0", REFRESH_TOKEN := some "R0" },
      tokenFile := some "\x7b\"access_token\":\"T0\",\"refresh_token\":\"R0\"\x7d" }
    "abc" { status := 200, body := "\x7b\"access_token\":\"A\"\x7d" }
    (.obj [(JSString.ofString "access_token", .str (JSString.ofString "A"))])
    (.str (JSString.ofString "A"))
    (by decide) (by decide) (by decide) ⟨by decide, by decide⟩ rfl rfl rfl rfl).2.2.1

/-- C3, as the code has it.  With a non-empty code, no `error` parameter, a token endpoint set,
a response of the token endpoint that carries the non-empty texts `A` as `access_token` and
`B` as `refresh_token`, both free of U+0000, a token file that opens for writing with no
earlier write under way, and a response not yet started, `handleAuthCodeRedirect` returns
normally; the tokens in memory are then `A` and `B` and the answer is a 301 redirect to
`/anywhere`.  Once the write that `storeTokens` issued has reached the file, the token file
holds the JSON text of the pair, which parses back to the pair, and `readAndLoadTokens` run in
any process state over that token file (an empty memory among them) puts `A` and `B` in
memory. -/
theorem handleAuthCodeRedirect_success (P : Platform) (accessedURL : URL) (w : World)
    (code : String) (response : FetchResponse) (v : Json) (A B : String)
    (hcode : accessedURL.searchParams.get "code" = some code) (hne : code ≠ "")
    (hnoerr : accessedURL.searchParams.has "error" = false)
    (huri : truthy w.env.TOKEN_URI = true ∧ w.env.TOKEN_URI ≠ some "undefined")
    (hfetch : P.fetch (tokenRequest w.env code) = .ok response)
    (hparse : JSON.parse P.number response.body = some v)
    (haccess : v.getProp "access_token" = some (.str (JSString.ofString A))) (hA : A ≠ "")
    (hrefresh : v.getProp "refresh_token" = some (.str (JSString.ofString B))) (hB : B ≠ "")
    (hnulA : '\x00' ∉ A.data) (hnulB : '\x00' ∉ B.data)
    (hopen : P.openForWriting = none) (hpending : w.pendingWrite = none)
    (hres : w.res.headersSent = false) :
    (handleAuthCodeRedirect P accessedURL w).1 = .ok ()
      ∧ (handleAuthCodeRedirect P accessedURL w).2.env.ACCESS_TOKEN = some A
      ∧ (handleAuthCodeRedirect P accessedURL w).2.env.REFRESH_TOKEN = some B
      ∧ (handleAuthCodeRedirect P accessedURL w).2.res = redirectTo "/anywhere"
      ∧ (completeWrite none (handleAuthCodeRedirect P accessedURL w).2).tokenFile
          = some (JSON.stringify (tokenPair A B))
      ∧ JSON.parse P.number (JSON.stringify (tokenPair A B)) = some (tokenPair A B)
      ∧ ∀ restarted : World,
          restarted.tokenFile
            = (completeWrite none (handleAuthCodeRedirect P accessedURL w).2).tokenFile →
          readAndLoadTokens P restarted = (.ok (), { restarted with env := { restarted.env with
            ACCESS_TOKEN := some A, REFRESH_TOKEN := some B } }) := by
  have hrun := handleAuthCodeRedirect_stores P accessedURL w code response v A B hcode hne
    hnoerr huri hfetch hparse haccess hA hrefresh hB hnulA hnulB hopen hres
  have hfile : (completeWrite none (handleAuthCodeRedirect P accessedURL w).2).tokenFile
      = some (JSON.stringify (tokenPair A B)) := by
    rw [hrun]
    cases hearly : P.writeLandsEarly <;> simp [completeWrite, hpending]
  refine ⟨by rw [hrun], by rw [hrun], by rw [hrun], by rw [hrun], hfile,
    parse_stringify_tokenPair P.number A B, ?_⟩
  intro restarted hrestarted
  rw [hfile] at hrestarted
  exact readAndLoadTokens_tokenPair P restarted A B hA hB hnulA hnulB hrestarted

/-- A token response with both tokens, on a platform where the write is still pending when the
handler returns: once it has reached the file, the file holds the pair. -/
theorem handleAuthCodeRedirect_success_witness :
    (completeWrite none (handleAuthCodeRedirect
        { samplePlatform "\x7b\"access_token\":\"A\",\"refresh_token\":\"B\"\x7d" 200 with
          writeLandsEarly := false }
        { protocol := "http:", host := "127.0.0.1:3030", pathname := "/auth-code-redirect",
          searchParams := [("code", "abc")], hash := "" }
        { env := sampleEnv }).2).tokenFile
      = some (JSON.stringify (tokenPair "A" "B")) :=
  (handleAuthCodeRedirect_success
    { samplePlatform "\x7b\"access_token\":\"A\",\"refresh_token\":\"B\"\x7d" 200 with
      writeLandsEarly := false }
    { protocol := "http:", host := "127.0.0.1:3030", pathname := "/auth-code-redirect",
      searchParams := [("code", "abc")], hash := "" }
    { env := sampleEnv }
    "abc" { status := 200, body := "\x7b\"access_token\":\"A\",\"refresh_token\":\"B\"\x7d" }
    (tokenPair "A" "B") "A" "B"
    (by decide) (by decide) (by decide) ⟨by decide, by decide⟩ rfl rfl rfl (by decide) rfl
    (by decide) (by decide) (by decide) rfl rfl rfl).2.2.2.2.1

/-- C3 as stated fails.  First, the token endpoint answers with the access token `a`, U+0000,
`b`: `handleAuthCodeRedirect` returns normally and the access token in memory is `a`, not the
token received.  Second, on a platform where the write nobody awaits has not reached the file
when the handler returns, the tokens `A` and `B` are received, the handler returns normally, the
token file is empty, and `readAndLoadTokens` over that file throws.  Third, when the token file
does not open for writing, the handler throws the error of the opening. -/
theorem handleAuthCodeRedirect_loses_tokens :
    JSON.parse numberText "\x7b\"access_token\":\"a\\u0000b\",\"refresh_token\":\"B\"\x7d"
        = some (tokenPair "a\x00b" "B")
      ∧ (handleAuthCodeRedirect
          (samplePlatform "\x7b\"access_token\":\"a\\u0000b\",\"refresh_token\":\"B\"\x7d" 200)
          { protocol := "http:", host := "127.0.0.1:3030", pathname := "/auth-code-redirect",
            searchParams := [("code", "abc")], hash := "" }
          { env := sampleEnv }).1 = .ok ()
      ∧ (handleAuthCodeRedirect
          (samplePlatform "\x7b\"access_token\":\"a\\u0000b\",\"refresh_token\":\"B\"\x7d" 200)
          { protocol := "http:", host := "127.0.0.1:3030", pathname := "/auth-code-redirect",
            searchParams := [("code", "abc")], hash := "" }
          { env := sampleEnv }).2.env.ACCESS_TOKEN = some "a"
      ∧ (handleAuthCodeRedirect
          { samplePlatform "\x7b\"access_token\":\"A\",\"refresh_token\":\"B\"\x7d" 200 with
            writeLandsEarly := false }
          { protocol := "http:", host := "127.0.0.1:3030", pathname := "/auth-code-redirect",
            searchParams := [("code", "abc")], hash := "" }
          { env := sampleEnv }).1 = .ok ()
      ∧ (handleAuthCodeRedirect
          { samplePlatform "\x7b\"access_token\":\"A\",\"refresh_token\":\"B\"\x7d" 200 with
            writeLandsEarly := false }
          { protocol := "http:", host := "127.0.0.1:3030", pathname := "/auth-code-redirect",
            searchParams := [("code", "abc")], hash := "" }
          { env := sampleEnv }).2.tokenFile = some ""
      ∧ (readAndLoadTokens (samplePlatform "" 200) { tokenFile := some "" }).1
          = .error ⟨"SyntaxError", "Unexpected token in JSON"⟩
      ∧ (handleAuthCodeRedirect
          { samplePlatform "\x7b\"access_token\":\"A\",\"refresh_token\":\"B\"\x7d" 200 with
            openForWriting := some ⟨"Error", "EACCES: permission denied, open 'tokens.json'"⟩ }
          { protocol := "http:", host := "127.0.0.1:3030", pathname := "/auth-code-redirect",
            searchParams := [("code", "abc")], hash := "" }
          { env := sampleEnv }).1
          = .error ⟨"Error", "EACCES: permission denied, open 'tokens.json'"⟩ :=
  ⟨rfl, rfl, by decide, rfl, by decide, rfl, rfl⟩

/-! ## The round trip through the token file -/

/-- C7, as the code has it.  For a pair of non-empty texts free of U+0000 and a token file that
opens for writing with no earlier write under way, `storeTokens` returns normally, and once the
write it issued has reached the file, `readAndLoadTokens` run in any process state over that
file (an empty memory among them, as after a restart) succeeds and puts exactly the stored pair
in memory. -/
theorem storeTokens_readAndLoadTokens (P : Platform) (w : World)
    (access_token refresh_token : String)
    (ha : access_token ≠ "") (hr : refresh_token ≠ "")
    (hna : '\x00' ∉ access_token.data) (hnr : '\x00' ∉ refresh_token.data)
    (hopen : P.openForWriting = none) (hpending : w.pendingWrite = none) :
    (storeTokens P (tokenPair access_token refresh_token) w).1 = .ok ()
      ∧ (completeWrite none (storeTokens P (tokenPair access_token refresh_token) w).2).tokenFile
          = some (JSON.stringify (tokenPair access_token refresh_token))
      ∧ ∀ restarted : World,
          restarted.tokenFile
            = (completeWrite none
                (storeTokens P (tokenPair access_token refresh_token) w).2).tokenFile →
          readAndLoadTokens P restarted = (.ok (), { restarted with env := { restarted.env with
            ACCESS_TOKEN := some access_token, REFRESH_TOKEN := some refresh_token } }) := by
  have hrun : storeTokens P (tokenPair access_token refresh_token) w = (.ok (), { w with
      tokenFile := some (if P.writeLandsEarly
        then JSON.stringify (tokenPair access_token refresh_token) else ""),
      pendingWrite := if P.writeLandsEarly then w.pendingWrite
        else some (JSON.stringify (tokenPair access_token refresh_token)) }) := by
    cases hearly : P.writeLandsEarly <;>
      simp [storeTokens, JS.bind_run, openTokenFileForWriting, writeTokenFile, hopen, hearly]
  have hfile : (completeWrite none
      (storeTokens P (tokenPair access_token refresh_token) w).2).tokenFile
      = some (JSON.stringify (tokenPair access_token refresh_token)) := by
    rw [hrun]
    cases hearly : P.writeLandsEarly <;> simp [completeWrite, hpending]
  refine ⟨by rw [hrun], hfile, ?_⟩
  intro restarted hrestarted
  rw [hfile] at hrestarted
  exact readAndLoadTokens_tokenPair P restarted access_token refresh_token ha hr hna hnr
    hrestarted

/-- A pair whose tokens need escaping in JSON, written late and reloaded into an empty
memory. -/
theorem storeTokens_readAndLoadTokens_witness :
    readAndLoadTokens { samplePlatform "" 200 with writeLandsEarly := false }
        { tokenFile := (completeWrite none
            (storeTokens { samplePlatform "" 200 with writeLandsEarly := false }
              (tokenPair "ya29.\"T1\"" "1//R1\n") { env := sampleEnv }).2).tokenFile }
      = (.ok (), { env := { ACCESS_TOKEN := some "ya29.\"T1\"", REFRESH_TOKEN := some "1//R1\n" },
                   tokenFile := (completeWrite none
                     (storeTokens { samplePlatform "" 200 with writeLandsEarly := false }
                       (tokenPair "ya29.\"T1\"" "1//R1\n") { env := sampleEnv }).2).tokenFile }) :=
  (storeTokens_readAndLoadTokens { samplePlatform "" 200 with writeLandsEarly := false }
    { env := sampleEnv } "ya29.\"T1\"" "1//R1\n"
    (by decide) (by decide) (by decide) (by decide) rfl rfl).2.2 _ rfl

/-- C7 as stated fails.  First, the pair whose access token is `a`, U+0000, `b` is stored and the
file then parses back to that pair, yet `readAndLoadTokens` from an empty memory puts the
access token `a` in memory.  Second, on a platform where the write nobody awaits has not
reached the file when `storeTokens` returns, the file is empty after the pair `A`, `B` is
stored and `readAndLoadTokens` over it throws.  Third, when the token file does not open for
writing, `storeTokens` throws the error of the opening. -/
theorem storeTokens_readAndLoadTokens_differs :
    (storeTokens (samplePlatform "" 200) (tokenPair "a\x00b" "B") {}).2.tokenFile
        = some "\x7b\"access_token\":\"a\\u0000b\",\"refresh_token\":\"B\"\x7d"
      ∧ JSON.parse numberText "\x7b\"access_token\":\"a\\u0000b\",\"refresh_token\":\"B\"\x7d"
          = some (tokenPair "a\x00b" "B")
      ∧ (readAndLoadTokens (samplePlatform "" 200)
          { tokenFile := (storeTokens (samplePlatform "" 200)
              (tokenPair "a\x00b" "B") {}).2.tokenFile }).1 = .ok ()
      ∧ (readAndLoadTokens (samplePlatform "" 200)
          { tokenFile := (storeTokens (samplePlatform "" 200)
              (tokenPair "a\x00b" "B") {}).2.tokenFile }).2.env.ACCESS_TOKEN = some "a"
      ∧ (storeTokens { samplePlatform "" 200 with writeLandsEarly := false }
          (tokenPair "A" "B") {}).1 = .ok ()
      ∧ (storeTokens { samplePlatform "" 200 with writeLandsEarly := false }
          (tokenPair "A" "B") {}).2.tokenFile = some ""
      ∧ (readAndLoadTokens { samplePlatform "" 200 with writeLandsEarly := false }
          { tokenFile := (storeTokens { samplePlatform "" 200 with writeLandsEarly := false }
              (tokenPair "A" "B") {}).2.tokenFile }).1
          = .error ⟨"SyntaxError", "Unexpected token in JSON"⟩
      ∧ (storeTokens
          { samplePlatform "" 200 with
            openForWriting := some ⟨"Error", "EACCES: permission denied, open 'tokens.json'"⟩ }
          (tokenPair "A" "B") {}).1
          = .error ⟨"Error", "EACCES: permission denied, open 'tokens.json'"⟩ :=
  ⟨by decide, rfl, rfl, by decide, rfl, by decide, rfl, rfl⟩

/-! ## The default flow: `handleUnhandledRoutes` -/

/-- A successful load changes the two tokens of `process.env` and nothing else. -/
theorem readAndLoadTokens_inv (P : Platform) (w loaded : World)
    (h : readAndLoadTokens P w = (.ok (), loaded)) :
    ∃ a r : String, loaded = { w with env := { w.env with
      ACCESS_TOKEN := some a, REFRESH_TOKEN := some r } } := by
  by_cases hok : ∃ text v, w.tokenFile = some text ∧ JSON.parse P.number text = some v ∧ v ≠ .null
      ∧ Json.truthy (v.getProp "access_token") = true
      ∧ Json.truthy (v.getProp "refresh_token") = true
  · obtain ⟨text, v, hfile, hparse, hv, ha, hr⟩ := hok
    rw [readAndLoadTokens_ok P w text v hfile hparse hv ha hr] at h
    exact ⟨_, _, (Prod.mk.inj h).2.symm⟩
  · exfalso
    have hfail : ∃ e, readAndLoadTokens P w = (.error e, w) := by
      apply readAndLoadTokens_fails
      cases hfile : w.tokenFile with
      | none => exact Or.inl rfl
      | some text =>
        cases hparse : JSON.parse P.number text with
        | none => exact Or.inr (Or.inl ⟨text, rfl, hparse⟩)
        | some v =>
          refine Or.inr (Or.inr ⟨text, v, rfl, hparse, ?_⟩)
          by_contra hcon
          simp only [not_or, Bool.not_eq_false] at hcon
          refine hok ⟨text, v, hfile, hparse, ?_, hcon.1, hcon.2⟩
          rintro rfl
          simp [Json.getProp, Json.truthy] at hcon
    obtain ⟨e, he⟩ := hfail
    rw [he] at h
    cases h

/-- When memory lacks tokens and loading fails, the default flow logs the failure and
redirects to `/authorize-me`; it does nothing else. -/
theorem handleUnhandledRoutes_load_fails (P : Platform) (w : World) (e : JSError)
    (hmem : memoryLacksTokens w.env = true) (hload : readAndLoadTokens P w = (.error e, w))
    (hres : w.res.headersSent = false) :
    handleUnhandledRoutes P w = (.ok (), { w with
      console := w.console ++ [.log [.text "Error while reading and loading tokens", .error e]],
      res := redirectTo "/authorize-me" }) := by
  unfold memoryLacksTokens at hmem
  simp only [handleUnhandledRoutes, JS.bind_run, getEnv, hmem, if_true, JS.tryCatch, hload,
    consoleLog]
  rw [redirectToAuthorizeMe_run _ (by simpa using hres)]
  rfl

/-- Once memory holds tokens, by itself or after a load, a failure of the downstream call is
logged and answered with a redirect to `/authorize-me`; nothing else changes. -/
theorem handleUnhandledRoutes_downstream_fails (P : Platform) (w authenticated : World)
    (hauth : (memoryLacksTokens w.env = false ∧ authenticated = w)
      ∨ (memoryLacksTokens w.env = true ∧ readAndLoadTokens P w = (.ok (), authenticated)))
    (hdown : (∃ e, P.fetch (driveRequest authenticated.env.ACCESS_TOKEN) = .error e)
      ∨ (∃ r, P.fetch (driveRequest authenticated.env.ACCESS_TOKEN) = .ok r ∧ r.ok = false))
    (hres : authenticated.res.headersSent = false) :
    ∃ e, handleUnhandledRoutes P w = (.ok (), { authenticated with
      fetched := authenticated.fetched ++ [driveRequest authenticated.env.ACCESS_TOKEN],
      console := authenticated.console ++ [.log [.error e]],
      res := redirectTo "/authorize-me" }) := by
  have hstep : handleUnhandledRoutes P w = JS.tryCatch
      (do
        let res ← fetch P (driveRequest authenticated.env.ACCESS_TOKEN)
        if !res.ok then
          JS.throw ⟨"Error", "Error in the response"⟩
        else
          let body ← res.json P
          consoleLog [.json body]
          ServerResponse.setStatusCode 200
          ServerResponse.endResponse)
      (fun e => do
        consoleLog [.error e]
        redirectToAuthorizeMe) authenticated := by
    rcases hauth with ⟨hmem, rfl⟩ | ⟨hmem, hload⟩
    · unfold memoryLacksTokens at hmem
      simp only [handleUnhandledRoutes, JS.bind_run, getEnv, hmem, Bool.false_eq_true, if_false,
        JS.pure_run, driveRequest]
    · unfold memoryLacksTokens at hmem
      simp only [handleUnhandledRoutes, JS.bind_run, getEnv, hmem, if_true, JS.tryCatch, hload,
        JS.pure_run, driveRequest]
  rw [hstep]
  rcases hdown with ⟨e, hfetch⟩ | ⟨r, hfetch, hok⟩
  · refine ⟨e, ?_⟩
    simp only [JS.tryCatch, JS.bind_run, fetch, hfetch, consoleLog]
    rw [redirectToAuthorizeMe_run _ (by simpa using hres)]
  · refine ⟨⟨"Error", "Error in the response"⟩, ?_⟩
    simp only [JS.tryCatch, JS.bind_run, fetch, hfetch, hok, Bool.not_false, if_true, JS.throw,
      consoleLog]
    rw [redirectToAuthorizeMe_run _ (by simpa using hres)]

/-- C6.  When memory lacks tokens and the token file is missing, empty, not JSON, or a document
in which `access_token` or `refresh_token` is absent or empty, `readAndLoadTokens` throws and
changes nothing, and `handleUnhandledRoutes`, on a response not yet started, returns after
answering with a 301 redirect to `/authorize-me`: it makes no outbound call, and the tokens in
memory and the token file are what they were. -/
theorem handleUnhandledRoutes_no_tokens (P : Platform) (w : World)
    (hmem : memoryLacksTokens w.env = true)
    (hstore : w.tokenFile = none
      ∨ w.tokenFile = some ""
      ∨ (∃ text, w.tokenFile = some text ∧ JSON.parse P.number text = none)
      ∨ (∃ text v, w.tokenFile = some text ∧ JSON.parse P.number text = some v
          ∧ (v.getProp "access_token" = none ∨ v.getProp "access_token" = some (.str (JSString.ofString ""))
            ∨ v.getProp "refresh_token" = none ∨ v.getProp "refresh_token" = some (.str (JSString.ofString "")))))
    (hres : w.res.headersSent = false) :
    (∃ e, readAndLoadTokens P w = (.error e, w))
      ∧ (handleUnhandledRoutes P w).1 = .ok ()
      ∧ (handleUnhandledRoutes P w).2.res = redirectTo "/authorize-me"
      ∧ (handleUnhandledRoutes P w).2.fetched = w.fetched
      ∧ (handleUnhandledRoutes P w).2.env = w.env
      ∧ (handleUnhandledRoutes P w).2.tokenFile = w.tokenFile := by
  have hload : ∃ e, readAndLoadTokens P w = (.error e, w) := by
    apply readAndLoadTokens_fails
    rcases hstore with h | h | ⟨text, hfile, hparse⟩ | ⟨text, v, hfile, hparse, hv⟩
    · exact Or.inl h
    · exact Or.inr (Or.inl ⟨"", h, rfl⟩)
    · exact Or.inr (Or.inl ⟨text, hfile, hparse⟩)
    · refine Or.inr (Or.inr ⟨text, v, hfile, hparse, ?_⟩)
      rcases hv with hv | hv | hv | hv <;> simp [hv, Json.truthy, JSString.ofString]
  obtain ⟨e, he⟩ := hload
  refine ⟨⟨e, he⟩, ?_⟩
  rw [handleUnhandledRoutes_load_fails P w e hmem he hres]
  simp

/-- A first request with nothing in memory and no token file. -/
theorem handleUnhandledRoutes_no_tokens_witness :
    (handleUnhandledRoutes (samplePlatform "" 200) { env := sampleEnv }).2.res
      = redirectTo "/authorize-me" :=
  (handleUnhandledRoutes_no_tokens (samplePlatform "" 200) { env := sampleEnv }
    (by decide) (Or.inl rfl) rfl).2.2.1

/-- C8, as the code has it.  When memory holds tokens, by itself or after `readAndLoadTokens`
has loaded them, and the downstream call then fails (a transport error or a status outside
200 to 299), `handleUnhandledRoutes` returns after answering with a 301 redirect to
`/authorize-me`; the token file is unchanged and the tokens stay in memory: `process.env` is
what it was once the tokens were there, with both tokens set. -/
theorem handleUnhandledRoutes_downstream_failure (P : Platform) (w authenticated : World)
    (hauth : (memoryLacksTokens w.env = false ∧ authenticated = w)
      ∨ (memoryLacksTokens w.env = true ∧ readAndLoadTokens P w = (.ok (), authenticated)))
    (hdown : (∃ e, P.fetch (driveRequest authenticated.env.ACCESS_TOKEN) = .error e)
      ∨ (∃ r, P.fetch (driveRequest authenticated.env.ACCESS_TOKEN) = .ok r ∧ r.ok = false))
    (hres : w.res.headersSent = false) :
    (handleUnhandledRoutes P w).1 = .ok ()
      ∧ (handleUnhandledRoutes P w).2.res = redirectTo "/authorize-me"
      ∧ (handleUnhandledRoutes P w).2.tokenFile = w.tokenFile
      ∧ (handleUnhandledRoutes P w).2.env = authenticated.env
      ∧ (handleUnhandledRoutes P w).2.env.ACCESS_TOKEN ≠ none
      ∧ (handleUnhandledRoutes P w).2.env.REFRESH_TOKEN ≠ none := by
  have hsame : authenticated.res = w.res ∧ authenticated.tokenFile = w.tokenFile
      ∧ authenticated.env.ACCESS_TOKEN ≠ none ∧ authenticated.env.REFRESH_TOKEN ≠ none := by
    rcases hauth with ⟨hmem, rfl⟩ | ⟨_, hload⟩
    · refine ⟨rfl, rfl, ?_, ?_⟩
      · intro hnone
        simp [memoryLacksTokens, hnone, truthy] at hmem
      · intro hnone
        simp [memoryLacksTokens, hnone, truthy] at hmem
    · obtain ⟨a, r, rfl⟩ := readAndLoadTokens_inv P w authenticated hload
      simp
  obtain ⟨e, he⟩ := handleUnhandledRoutes_downstream_fails P w authenticated hauth hdown
    (by rw [hsame.1]; exact hres)
  rw [he]
  exact ⟨rfl, rfl, hsame.2.1, rfl, hsame.2.2.1, hsame.2.2.2⟩

/-- Tokens in memory and a downstream API that answers 401. -/
theorem handleUnhandledRoutes_downstream_failure_witness :
    (handleUnhandledRoutes (samplePlatform "" 401)
        { env := { sampleEnv with ACCESS_TOKEN := some "T1", REFRESH_TOKEN := some "R1" } }).2.env
      = { sampleEnv with ACCESS_TOKEN := some "T1", REFRESH_TOKEN := some "R1" } :=
  (handleUnhandledRoutes_downstream_failure (samplePlatform "" 401)
    { env := { sampleEnv with ACCESS_TOKEN := some "T1", REFRESH_TOKEN := some "R1" } }
    { env := { sampleEnv with ACCESS_TOKEN := some "T1", REFRESH_TOKEN := some "R1" } }
    (Or.inl ⟨by decide, rfl⟩) (Or.inr ⟨{ status := 401, body := "\x7b\x7d" }, rfl, by decide⟩)
    rfl).2.2.2.1

/-- C8 as stated fails: with the tokens `T1` and `R1` in memory and a downstream API that
answers 401, the default flow redirects to `/authorize-me` and both tokens are still in
memory afterwards. -/
theorem handleUnhandledRoutes_keeps_tokens :
    memoryLacksTokens { sampleEnv with ACCESS_TOKEN := some "T1", REFRESH_TOKEN := some "R1" }
        = false
      ∧ (samplePlatform "" 401).fetch (driveRequest (some "T1"))
          = .ok { status := 401, body := "\x7b\x7d" }
      ∧ FetchResponse.ok { status := 401, body := "\x7b\x7d" } = false
      ∧ (handleUnhandledRoutes (samplePlatform "" 401)
          { env := { sampleEnv with ACCESS_TOKEN := some "T1", REFRESH_TOKEN := some "R1" } }).2.res
          = redirectTo "/authorize-me"
      ∧ (handleUnhandledRoutes (samplePlatform "" 401)
          { env := { sampleEnv with ACCESS_TOKEN := some "T1", REFRESH_TOKEN := some "R1" }
            }).2.env.ACCESS_TOKEN = some "T1"
      ∧ (handleUnhandledRoutes (samplePlatform "" 401)
          { env := { sampleEnv with ACCESS_TOKEN := some "T1", REFRESH_TOKEN := some "R1" }
            }).2.env.REFRESH_TOKEN = some "R1" := by
  refine ⟨by decide, rfl, by decide, by decide, by decide, by decide⟩

/-! ## The authorization URL: `createServiceAuthorizationURI` -/

theorem countName_append (ps qs : URLSearchParams) (name : String) :
    countName (ps ++ qs) name = countName ps name + countName qs name := by
  simp [countName]

theorem countPair_append (ps qs : URLSearchParams) (name value : String) :
    countPair (ps ++ qs) name value = countPair ps name value + countPair qs name value := by
  simp [countPair]

/-- With `AUTH_URI` set to a text the URL parser accepts, the method returns the parsed URL
with five pairs appended to its query, and changes nothing. -/
theorem createServiceAuthorizationURI_run (P : Platform) (w : World) (authURI : String)
    (authURL : URL) (hauth : w.env.AUTH_URI = some authURI) (hne : authURI ≠ "")
    (hurl : P.newURL authURI none = .ok authURL) :
    createServiceAuthorizationURI P w = (.ok (some { authURL with
      searchParams := authURL.searchParams
        ++ (defaultAuthSearchParams ++ [("client_id", stringOf w.env.CLIENT_ID)]) }), w) := by
  simp [createServiceAuthorizationURI, JS.bind_run, getEnv, hauth, truthy, hne, stringOf,
    JS.ofExcept, hurl, JS.pure_run, defaultAuthSearchParams, URLSearchParams.append]

/-- C4, as the code has it.  With a client id and an authorization endpoint that the URL parser
accepts and whose own query has no pair named `client_id`, `redirect_uri` or `scope` and
neither the pair `response_type=code` nor `access_type=offline`, the URL that
`createServiceAuthorizationURI` returns has exactly one pair of each of the names `client_id`,
`redirect_uri` and `scope`, exactly one pair `response_type=code` and one
`access_type=offline`, and its `client_id` is the configured client id. -/
theorem createServiceAuthorizationURI_query (P : Platform) (w : World)
    (authURI client_id : String) (authURL : URL)
    (hauth : w.env.AUTH_URI = some authURI) (hne : authURI ≠ "")
    (hclient : w.env.CLIENT_ID = some client_id)
    (hurl : P.newURL authURI none = .ok authURL)
    (hfree : countName authURL.searchParams "client_id" = 0
      ∧ countName authURL.searchParams "redirect_uri" = 0
      ∧ countName authURL.searchParams "scope" = 0
      ∧ countPair authURL.searchParams "response_type" "code" = 0
      ∧ countPair authURL.searchParams "access_type" "offline" = 0) :
    ∃ url, createServiceAuthorizationURI P w = (.ok (some url), w)
      ∧ countName url.searchParams "client_id" = 1
      ∧ countName url.searchParams "redirect_uri" = 1
      ∧ countName url.searchParams "scope" = 1
      ∧ countPair url.searchParams "response_type" "code" = 1
      ∧ countPair url.searchParams "access_type" "offline" = 1
      ∧ countPair url.searchParams "client_id" client_id = 1
      ∧ url.searchParams.get "client_id" = some client_id := by
  obtain ⟨h1, h2, h3, h4, h5⟩ := hfree
  refine ⟨_, createServiceAuthorizationURI_run P w authURI authURL hauth hne hurl, ?_⟩
  have hfive : ∀ name : String,
      countName (defaultAuthSearchParams ++ [("client_id", stringOf w.env.CLIENT_ID)]) name
        = (if "redirect_uri" = name then 1 else 0) + (if "response_type" = name then 1 else 0)
          + (if "scope" = name then 1 else 0) + (if "access_type" = name then 1 else 0)
          + (if "client_id" = name then 1 else 0) := by
    intro name
    simp only [countName, defaultAuthSearchParams, List.cons_append, List.nil_append,
      List.filter_cons, List.filter_nil, beq_iff_eq]
    split_ifs <;> rfl
  have hnone : ∀ p ∈ authURL.searchParams, ¬ (p.1 == "client_id") = true := by
    intro p hp hname
    have : p ∈ authURL.searchParams.filter (fun p => p.1 == "client_id") :=
      List.mem_filter.mpr ⟨hp, hname⟩
    rw [List.eq_nil_of_length_eq_zero h1] at this
    exact List.not_mem_nil _ this
  have hle : countPair authURL.searchParams "client_id" client_id = 0 := by
    unfold countPair
    rw [List.length_eq_zero, List.filter_eq_nil_iff]
    intro p hp hpair
    exact hnone p hp (by simp only [Bool.and_eq_true] at hpair; exact hpair.1)
  refine ⟨?_, ?_, ?_, ?_, ?_, ?_, ?_⟩
  · rw [countName_append, h1, hfive]; decide
  · rw [countName_append, h2, hfive]; decide
  · rw [countName_append, h3, hfive]; decide
  · rw [countPair_append, h4]; simp [countPair, defaultAuthSearchParams]
  · rw [countPair_append, h5]; simp [countPair, defaultAuthSearchParams]
  · rw [countPair_append, hle]; simp [countPair, defaultAuthSearchParams, hclient, stringOf]
  · simp only [URLSearchParams.get]
    rw [List.find?_append, List.find?_eq_none.mpr hnone]
    simp [defaultAuthSearchParams, hclient, stringOf]

/-- The endpoint of the examples has no query of its own. -/
theorem createServiceAuthorizationURI_query_witness :
    ∃ url, createServiceAuthorizationURI (samplePlatform "" 200) { env := sampleEnv }
        = (.ok (some url), { env := sampleEnv })
      ∧ countName url.searchParams "client_id" = 1
      ∧ countName url.searchParams "redirect_uri" = 1
      ∧ countName url.searchParams "scope" = 1
      ∧ countPair url.searchParams "response_type" "code" = 1
      ∧ countPair url.searchParams "access_type" "offline" = 1
      ∧ countPair url.searchParams "client_id" "client-1" = 1
      ∧ url.searchParams.get "client_id" = some "client-1" :=
  createServiceAuthorizationURI_query (samplePlatform "" 200) { env := sampleEnv }
    "https://accounts.google.com/o/oauth2/auth" "client-1"
    { protocol := "https:", host := "accounts.google.com", pathname := "/o/oauth2/auth",
      searchParams := [], hash := "" }
    rfl (by decide) rfl rfl ⟨rfl, rfl, rfl, rfl, rfl⟩

/-- C4 as stated fails: with the client id `client-1` and the authorization endpoint
`https://accounts.google.com/o/oauth2/auth?scope=email`, which the URL parser accepts, the URL
returned has two pairs named `scope`. -/
theorem createServiceAuthorizationURI_repeats_scope :
    (samplePlatform "" 200).newURL "https://accounts.google.com/o/oauth2/auth?scope=email" none
        = .ok { protocol := "https:", host := "accounts.google.com", pathname := "/o/oauth2/auth",
                searchParams := [("scope", "email")], hash := "" }
      ∧ (createServiceAuthorizationURI (samplePlatform "" 200)
          { env := { sampleEnv with
              AUTH_URI := some "https://accounts.google.com/o/oauth2/auth?scope=email" } }).1
        = .ok (some
            { protocol := "https:", host := "accounts.google.com", pathname := "/o/oauth2/auth",
              searchParams :=
                [("scope", "email"),
                 ("redirect_uri", "http://127.0.0.1:3030/auth-code-redirect"),
                 ("response_type", "code"),
                 ("scope", "https://www.googleapis.com/auth/drive"),
                 ("access_type", "offline"),
                 ("client_id", "client-1")],
              hash := "" })
      ∧ countName
          [("scope", "email"),
           ("redirect_uri", "http://127.0.0.1:3030/auth-code-redirect"),
           ("response_type", "code"),
           ("scope", "https://www.googleapis.com/auth/drive"),
           ("access_type", "offline"),
           ("client_id", "client-1")] "scope" = 2 :=
  ⟨rfl, rfl, by decide⟩

/-- C5, as the code has it.  When `AUTH_URI` is unset or empty, `createServiceAuthorizationURI`
returns `undefined` without throwing, and `handleAuthorizeMe` then throws before anything is
sent: the response gets no header and is neither started nor ended. -/
theorem handleAuthorizeMe_no_endpoint (P : Platform) (w : World)
    (hauth : truthy w.env.AUTH_URI = false) :
    createServiceAuthorizationURI P w = (.ok none, w)
      ∧ (∃ e, (handleAuthorizeMe P w).1 = .error e)
      ∧ (handleAuthorizeMe P w).2.res.headers = w.res.headers
      ∧ (handleAuthorizeMe P w).2.res.headersSent = w.res.headersSent
      ∧ (handleAuthorizeMe P w).2.res.finished = w.res.finished := by
  have hrun : createServiceAuthorizationURI P w = (.ok none, w) := by
    simp [createServiceAuthorizationURI, JS.bind_run, getEnv, hauth, JS.pure_run]
  refine ⟨hrun, ?_⟩
  cases hsent : w.res.headersSent <;>
    simp [handleAuthorizeMe, JS.bind_run, hrun, ServerResponse.writeHead, hsent]

/-- No `AUTH_URI` at all. -/
theorem handleAuthorizeMe_no_endpoint_witness :
    createServiceAuthorizationURI (samplePlatform "" 200)
        { env := { CLIENT_ID := some "client-1" } }
      = (.ok none, { env := { CLIENT_ID := some "client-1" } }) :=
  (handleAuthorizeMe_no_endpoint (samplePlatform "" 200)
    { env := { CLIENT_ID := some "client-1" } } (by decide)).1

set_option maxRecDepth 8000 in
/-- C5 as stated fails: with an empty `CLIENT_ID` (a `cred.json` whose `client_id` is empty) and
the authorization endpoint of the examples, `createServiceAuthorizationURI` does not throw: it
returns a URL whose `client_id` is empty, and `handleAuthorizeMe` answers with a complete 301
redirect to it; likewise when `CLIENT_ID` is the text `undefined` (what `readCredFile` leaves
when `cred.json` has no `client_id`). -/
theorem handleAuthorizeMe_without_client_id :
    (createServiceAuthorizationURI (samplePlatform "" 200)
        { env := { sampleEnv with CLIENT_ID := some "" } }).1
      = .ok (some
          { protocol := "https:", host := "accounts.google.com", pathname := "/o/oauth2/auth",
            searchParams :=
              [("redirect_uri", "http://127.0.0.1:3030/auth-code-redirect"),
               ("response_type", "code"),
               ("scope", "https://www.googleapis.com/auth/drive"),
               ("access_type", "offline"),
               ("client_id", "")],
            hash := "" })
      ∧ (handleAuthorizeMe (samplePlatform "" 200)
          { env := { sampleEnv with CLIENT_ID := some "" } }).1 = .ok ()
      ∧ (handleAuthorizeMe (samplePlatform "" 200)
          { env := { sampleEnv with CLIENT_ID := some "" } }).2.res
        = redirectTo ("https://accounts.google.com/o/oauth2/auth"
            ++ "?redirect_uri=http%3A%2F%2F127.0.0.1%3A3030%2Fauth-code-redirect"
            ++ "&response_type=code&scope=https%3A%2F%2Fwww.googleapis.com%2Fauth%2Fdrive"
            ++ "&access_type=offline&client_id=")
      ∧ (handleAuthorizeMe (samplePlatform "" 200)
          { env := { sampleEnv with CLIENT_ID := some "undefined" } }).2.res
        = redirectTo ("https://accounts.google.com/o/oauth2/auth"
            ++ "?redirect_uri=http%3A%2F%2F127.0.0.1%3A3030%2Fauth-code-redirect"
            ++ "&response_type=code&scope=https%3A%2F%2Fwww.googleapis.com%2Fauth%2Fdrive"
            ++ "&access_type=offline&client_id=undefined") :=
  ⟨rfl, rfl, by decide, by decide⟩

/-! ## The dispatcher: `serverCallback` -/

/-- Once the URL of the request is parsed, `serverCallback` logs the path and runs the handler
the `switch` selects, inside its `try`. -/
theorem serverCallback_run (P : Platform) (req : IncomingMessage) (w : World)
    (accessedURL : URL)
    (hurl : P.newURL req.url (some ("http://" ++ stringOf req.host)) = .ok accessedURL) :
    serverCallback P req w =
      JS.tryCatch
        (runHandler P accessedURL (selectHandler (slice1 accessedURL.pathname)))
        (fun e => consoleError [.error e])
        { w with console := w.console
            ++ [.log [.text "Endpoint hit: ", .text (slice1 accessedURL.pathname)]] } := by
  simp only [serverCallback, JS.tryCatch, JS.bind_run, JS.ofExcept, hurl, consoleLog]

/-- The `switch` selects `handleAuthorizeMe` for `authorize-me`, `handleAuthCodeRedirect` for
`auth-code-redirect`, and `handleUnhandledRoutes` for every other path. -/
theorem selectHandler_eq (path : String) :
    selectHandler path =
      if path = "authorize-me" then .handleAuthorizeMe
      else if path = "auth-code-redirect" then .handleAuthCodeRedirect
      else .handleUnhandledRoutes := by
  unfold selectHandler HANDLED_ENDPOINTS.AUTHORIZE_ME HANDLED_ENDPOINTS.AUTH_CODE_REDIRECT
  split_ifs with h1 h2 h3 <;> first | rfl | (subst h1; simp at *)

/-- C9.  Once the URL of the request is parsed and its path, without the first character,
logged, `serverCallback` hands the request to a handler that only that path decides, compared
as it is written: to `handleAuthorizeMe` when the path is `authorize-me`, to
`handleAuthCodeRedirect` (awaited, with the URL) when it is `auth-code-redirect`, and to
`handleUnhandledRoutes` (not awaited) for every other path, the empty path, `Authorize-Me` and
`access-token-redirect` among them.  The handler `selectHandler` names is `handleAuthorizeMe`
exactly when the path is `authorize-me` and `handleAuthCodeRedirect` exactly when it is
`auth-code-redirect`; the path compared is the path of the URL without its first character;
and a request whose URL has the same path and any other query is handed to the same
handler. -/
theorem serverCallback_routes_by_path (P : Platform) (req : IncomingMessage) (w : World)
    (accessedURL : URL)
    (hurl : P.newURL req.url (some ("http://" ++ stringOf req.host)) = .ok accessedURL) :
    (slice1 accessedURL.pathname = "authorize-me" →
        serverCallback P req w =
          JS.tryCatch (handleAuthorizeMe P) (fun e => consoleError [.error e])
            { w with console := w.console
                ++ [.log [.text "Endpoint hit: ", .text "authorize-me"]] })
      ∧ (slice1 accessedURL.pathname = "auth-code-redirect" →
        serverCallback P req w =
          JS.tryCatch (handleAuthCodeRedirect P accessedURL) (fun e => consoleError [.error e])
            { w with console := w.console
                ++ [.log [.text "Endpoint hit: ", .text "auth-code-redirect"]] })
      ∧ (slice1 accessedURL.pathname ≠ "authorize-me" →
        slice1 accessedURL.pathname ≠ "auth-code-redirect" →
        serverCallback P req w =
          JS.tryCatch (JS.detached (handleUnhandledRoutes P)) (fun e => consoleError [.error e])
            { w with console := w.console
                ++ [.log [.text "Endpoint hit: ", .text (slice1 accessedURL.pathname)]] })
      ∧ (selectHandler (slice1 accessedURL.pathname) = .handleAuthorizeMe
          ↔ slice1 accessedURL.pathname = "authorize-me")
      ∧ (selectHandler (slice1 accessedURL.pathname) = .handleAuthCodeRedirect
          ↔ slice1 accessedURL.pathname = "auth-code-redirect")
      ∧ (selectHandler (slice1 accessedURL.pathname) = .handleUnhandledRoutes
          ↔ (slice1 accessedURL.pathname ≠ "authorize-me"
            ∧ slice1 accessedURL.pathname ≠ "auth-code-redirect"))
      ∧ runHandler P accessedURL .handleAuthorizeMe = handleAuthorizeMe P
      ∧ runHandler P accessedURL .handleAuthCodeRedirect = handleAuthCodeRedirect P accessedURL
      ∧ runHandler P accessedURL .handleUnhandledRoutes = JS.detached (handleUnhandledRoutes P)
      ∧ runHandler P accessedURL (selectHandler "") = JS.detached (handleUnhandledRoutes P)
      ∧ runHandler P accessedURL (selectHandler "Authorize-Me")
          = JS.detached (handleUnhandledRoutes P)
      ∧ runHandler P accessedURL (selectHandler HANDLED_ENDPOINTS.ACCESS_TOKEN_REDIRECT)
          = JS.detached (handleUnhandledRoutes P)
      ∧ (∀ (c : Char) (rest : List Char), accessedURL.pathname = String.mk (c :: rest) →
          slice1 accessedURL.pathname = String.mk rest)
      ∧ (∀ (other : IncomingMessage) (state : World) (query : URLSearchParams),
          P.newURL other.url (some ("http://" ++ stringOf other.host))
            = .ok { accessedURL with searchParams := query } →
          serverCallback P other state =
            JS.tryCatch
              (runHandler P { accessedURL with searchParams := query }
                (selectHandler (slice1 accessedURL.pathname)))
              (fun e => consoleError [.error e])
              { state with console := state.console
                  ++ [.log [.text "Endpoint hit: ", .text (slice1 accessedURL.pathname)]] }) := by
  have hsel := selectHandler_eq (slice1 accessedURL.pathname)
  refine ⟨?_, ?_, ?_, ?_, ?_, ?_, rfl, rfl, rfl, ?_, ?_, ?_, ?_, ?_⟩
  · intro hpath
    rw [serverCallback_run P req w accessedURL hurl, hsel, hpath]
    rfl
  · intro hpath
    rw [serverCallback_run P req w accessedURL hurl, hsel, hpath]
    rfl
  · intro h1 h2
    rw [serverCallback_run P req w accessedURL hurl, hsel, if_neg h1, if_neg h2]
    rfl
  · rw [hsel]
    split_ifs with h1 h2 <;> simp_all
  · rw [hsel]
    split_ifs with h1 h2 <;> simp_all
  · rw [hsel]
    split_ifs with h1 h2 <;> simp_all
  · have h : selectHandler "" = .handleUnhandledRoutes := by decide
    rw [h]; rfl
  · have h : selectHandler "Authorize-Me" = .handleUnhandledRoutes := by decide
    rw [h]; rfl
  · have h : selectHandler HANDLED_ENDPOINTS.ACCESS_TOKEN_REDIRECT = .handleUnhandledRoutes := by
      decide
    rw [h]; rfl
  · intro c rest hpath
    rw [hpath]
    rfl
  · intro other state query hother
    exact serverCallback_run P other state _ hother

/-- A request for `/authorize-me` with a query is handed to `handleAuthorizeMe`. -/
theorem serverCallback_routes_by_path_witness :
    serverCallback (samplePlatform "" 200)
        { url := "/authorize-me?x=1", host := some "127.0.0.1:3030" } { env := sampleEnv }
      = JS.tryCatch (handleAuthorizeMe (samplePlatform "" 200))
          (fun e => consoleError [.error e])
          { env := sampleEnv,
            console := [.log [.text "Endpoint hit: ", .text "authorize-me"]] } :=
  (serverCallback_routes_by_path (samplePlatform "" 200)
    { url := "/authorize-me?x=1", host := some "127.0.0.1:3030" } { env := sampleEnv }
    { protocol := "http:", host := "127.0.0.1:3030", pathname := "/authorize-me",
      searchParams := [("x", "1")], hash := "" } rfl).1 (by decide)

/-- Whenever `handleAuthCodeRedirect` throws, it has left the response as it was. -/
theorem handleAuthCodeRedirect_throws (P : Platform) (accessedURL : URL) (w failed : World)
    (e : JSError) (h : handleAuthCodeRedirect P accessedURL w = (.error e, failed)) :
    failed.res = w.res ∧ failed.unhandledRejections = w.unhandledRejections := by
  unfold handleAuthCodeRedirect at h
  simp only [JS.bind_run, getEnv, fetch, FetchResponse.json] at h
  split_ifs at h with h1 h2
  · simp only [JS.throw] at h
    obtain ⟨-, rfl⟩ := Prod.mk.inj h
    exact ⟨rfl, rfl⟩
  · simp only [JS.throw] at h
    obtain ⟨-, rfl⟩ := Prod.mk.inj h
    exact ⟨rfl, rfl⟩
  · simp only [JS.bind_run, fetch] at h
    revert h
    generalize P.fetch _ = answer
    cases answer with
    | error e1 =>
      intro h
      simp only at h
      obtain ⟨-, rfl⟩ := Prod.mk.inj h
      exact ⟨rfl, rfl⟩
    | ok response =>
      cases hparse : JSON.parse P.number response.body with
      | none =>
        intro h
        simp only [FetchResponse.json, hparse, JS.throw] at h
        obtain ⟨-, rfl⟩ := Prod.mk.inj h
        exact ⟨rfl, rfl⟩
      | some v =>
        intro h
        simp only [FetchResponse.json, hparse, JS.pure_run] at h
        by_cases hv : v = .null
        · subst hv
          simp only [destructureTokens, JS.throw] at h
          obtain ⟨-, rfl⟩ := Prod.mk.inj h
          exact ⟨rfl, rfl⟩
        · have hd : destructureTokens v
              = pure (v.getProp "access_token", v.getProp "refresh_token") := by
            cases v <;> first | exact absurd rfl hv | rfl
          simp only [hd, JS.pure_run] at h
          split_ifs at h with h3
          · simp only [JS.throw] at h
            obtain ⟨-, rfl⟩ := Prod.mk.inj h
            exact ⟨rfl, rfl⟩
          · simp only [JS.bind_run, storeTokens, openTokenFileForWriting] at h
            cases hopen : P.openForWriting with
            | some e2 =>
              simp only [hopen] at h
              obtain ⟨-, rfl⟩ := Prod.mk.inj h
              exact ⟨rfl, rfl⟩
            | none =>
              have hvalid : "/anywhere".data.all validHeaderChar = true := by decide
              cases hearly : P.writeLandsEarly <;>
                simp only [hopen, hearly, writeTokenFile, loadTokens, JS.bind_run, getEnv, setEnv,
                  ServerResponse.writeHead, ServerResponse.endResponse, Bool.false_eq_true,
                  if_false, if_true, hvalid] at h <;>
                split_ifs at h with h4 <;>
                first
                | (obtain ⟨-, rfl⟩ := Prod.mk.inj h; exact ⟨rfl, rfl⟩)
                | cases h

/-- C10, as the code has it.  For a request whose path is `auth-code-redirect` and on which
`handleAuthCodeRedirect` throws, `serverCallback` returns normally: the error has been caught
and written with `console.error`, no rejection is left unhandled, and no response is sent,
the response object being what it was before the request was handled. -/
theorem serverCallback_callback_failure (P : Platform) (req : IncomingMessage) (w failed : World)
    (accessedURL : URL) (e : JSError)
    (hurl : P.newURL req.url (some ("http://" ++ stringOf req.host)) = .ok accessedURL)
    (hpath : slice1 accessedURL.pathname = "auth-code-redirect")
    (hfail : handleAuthCodeRedirect P accessedURL
      { w with console := w.console
          ++ [.log [.text "Endpoint hit: ", .text "auth-code-redirect"]] } = (.error e, failed)) :
    serverCallback P req w
        = (.ok (), { failed with console := failed.console ++ [.error [.error e]] })
      ∧ (serverCallback P req w).2.res = w.res
      ∧ (serverCallback P req w).2.unhandledRejections = w.unhandledRejections := by
  have hrun : serverCallback P req w
      = (.ok (), { failed with console := failed.console ++ [.error [.error e]] }) := by
    rw [serverCallback_run P req w accessedURL hurl, hpath]
    have hsel : selectHandler "auth-code-redirect" = .handleAuthCodeRedirect := by decide
    simp only [hsel, runHandler, JS.tryCatch, hfail, consoleError]
  obtain ⟨hres, hrej⟩ := handleAuthCodeRedirect_throws P accessedURL _ failed e hfail
  refine ⟨hrun, ?_, ?_⟩
  · rw [hrun]; exact hres
  · rw [hrun]; exact hrej

/-- The provider's denial, sent to the dispatcher. -/
theorem serverCallback_callback_failure_witness :
    (serverCallback (samplePlatform "" 200)
        { url := "/auth-code-redirect?error=access_denied", host := some "127.0.0.1:3030" }
        { env := sampleEnv }).2.res = {} :=
  (serverCallback_callback_failure (samplePlatform "" 200)
    { url := "/auth-code-redirect?error=access_denied", host := some "127.0.0.1:3030" }
    { env := sampleEnv } _
    { protocol := "http:", host := "127.0.0.1:3030", pathname := "/auth-code-redirect",
      searchParams := [("error", "access_denied")], hash := "" }
    ⟨"Error", "Authentication code not found."⟩ rfl (by decide) rfl).2.1

/-- C10 as stated fails: the request `/auth-code-redirect?error=access_denied` makes
`handleAuthCodeRedirect` throw, and after `serverCallback` has returned the response has no
header, is not started and is not ended: nothing is sent to the client. -/
theorem serverCallback_sends_nothing :
    (handleAuthCodeRedirect (samplePlatform "" 200)
        { protocol := "http:", host := "127.0.0.1:3030", pathname := "/auth-code-redirect",
          searchParams := [("error", "access_denied")], hash := "" }
        { env := sampleEnv }).1 = .error ⟨"Error", "Authentication code not found."⟩
      ∧ (serverCallback (samplePlatform "" 200)
          { url := "/auth-code-redirect?error=access_denied", host := some "127.0.0.1:3030" }
          { env := sampleEnv }).1 = .ok ()
      ∧ (serverCallback (samplePlatform "" 200)
          { url := "/auth-code-redirect?error=access_denied", host := some "127.0.0.1:3030" }
          { env := sampleEnv }).2.res.headers = []
      ∧ (serverCallback (samplePlatform "" 200)
          { url := "/auth-code-redirect?error=access_denied", host := some "127.0.0.1:3030" }
          { env := sampleEnv }).2.res.headersSent = false
      ∧ (serverCallback (samplePlatform "" 200)
          { url := "/auth-code-redirect?error=access_denied", host := some "127.0.0.1:3030" }
          { env := sampleEnv }).2.res.finished = false :=
  ⟨rfl, rfl, by decide, by decide, by decide⟩

end OAuthApp
